import Mathlib

/-!
# Verification of the RISC-V 64 slice of the ART runtime

Shallow embedding, in Lean 4, of the components of the
`riscv-android-src/platform-art` excerpt that the frozen claims C1..C10
talk about:

* the instruction-set feature probe (`instruction_set_features_riscv64.cc`),
* the unwind/deoptimization context (`context_riscv64.h`),
* the dex-overflow deliberate-failure build script,
* the JNI calling convention (`calling_convention_riscv64.cc`),
* the RISC-V 64 assembler (`assembler_riscv64.cc`): constant
  materialization, branch machinery, literal pools, and the
  floating-point NaN-handling helpers.

Every definition is translated from the corresponding source function;
definitions standing in for code that is referenced but not present in
the excerpt carry a doc comment starting with `Modelled from the spec:`.
-/

/-! ## C7: instruction-set feature string rendering -/

/-- Feature bit positions, from the enum in
`instruction_set_features_riscv64.h` (same order as `/proc/cpuinfo`). -/
def kIBitfield : Nat := 1 <<< 0

/-- Multiply/divide extension bit (`kMBitfield`). -/
def kMBitfield : Nat := 1 <<< 1

/-- Atomics extension bit (`kABitfield`). -/
def kABitfield : Nat := 1 <<< 2

/-- Single-precision float extension bit (`kFBitfield`). -/
def kFBitfield : Nat := 1 <<< 3

/-- Double-precision float extension bit (`kDBitfield`). -/
def kDBitfield : Nat := 1 <<< 4

/-- Compressed-instruction extension bit (`kCBitfield`). -/
def kCBitfield : Nat := 1 <<< 5

/-- Vector extension bit (`kVBitfield`). -/
def kVBitfield : Nat := 1 <<< 6

/-- The fixed default bit combination used by `FromVariant`,
`FromCppDefines`, `FromCpuInfo` and `AddFeaturesFromSplitString`:
I+M+A+F+D+C. -/
def riscv64DefaultBits : Nat :=
  kIBitfield ||| kMBitfield ||| kABitfield ||| kFBitfield ||| kDBitfield ||| kCBitfield

/-- `Riscv64InstructionSetFeatures::GetFeatureString` from
`instruction_set_features_riscv64.cc`: start from `"rv64imaf"`, then
append `"d"`, `"c"`, `"v"` according to the D, C, V bits of the bitmap. -/
def getFeatureString (bits : Nat) : String :=
  let result := "rv64imaf"
  let result := if bits &&& kDBitfield ≠ 0 then result ++ "d" else result
  let result := if bits &&& kCBitfield ≠ 0 then result ++ "c" else result
  let result := if bits &&& kVBitfield ≠ 0 then result ++ "v" else result
  result

theorem land_shift_one_ne_zero (n i : Nat) : (n &&& 1 <<< i ≠ 0) ↔ n.testBit i := by
  rw [Nat.one_shiftLeft, Nat.and_two_pow]
  have h2 : (2 : Nat) ^ i ≠ 0 := Nat.pos_iff_ne_zero.mp (Nat.pos_pow_of_pos i (by norm_num))
  cases h : n.testBit i <;> simp [h2]

/-- C7: for every feature bitmap, `GetFeatureString()` is exactly
`"rv64imaf"` followed by `"d"` iff the D bit is set, then `"c"` iff the
C bit is set, then `"v"` iff the V bit is set, in that order; the
default combination I+M+A+F+D+C renders exactly `"rv64imafdc"`,
dropping D drops only the `"d"`, and the rendered string ends in the
letter `v` exactly when the vector bit is set. -/
theorem c7_feature_string (bits : Nat) :
    getFeatureString bits =
      "rv64imaf" ++ (if bits.testBit 4 then "d" else "")
        ++ (if bits.testBit 5 then "c" else "")
        ++ (if bits.testBit 6 then "v" else "")
    ∧ getFeatureString riscv64DefaultBits = "rv64imafdc"
    ∧ getFeatureString
        (kIBitfield ||| kMBitfield ||| kABitfield ||| kFBitfield ||| kCBitfield)
        = "rv64imafc"
    ∧ ((getFeatureString bits).data.getLast? = some 'v' ↔ bits.testBit 6) := by
  have hd : (bits &&& kDBitfield ≠ 0) ↔ (bits.testBit 4 = true) := by
    simpa using land_shift_one_ne_zero bits 4
  have hc : (bits &&& kCBitfield ≠ 0) ↔ (bits.testBit 5 = true) := by
    simpa using land_shift_one_ne_zero bits 5
  have hv : (bits &&& kVBitfield ≠ 0) ↔ (bits.testBit 6 = true) := by
    simpa using land_shift_one_ne_zero bits 6
  refine ⟨?_, by decide, by decide, ?_⟩
  · simp only [getFeatureString, hd, hc, hv]
    cases h4 : bits.testBit 4 <;> cases h5 : bits.testBit 5 <;> cases h6 : bits.testBit 6 <;>
      simp
  · simp only [getFeatureString, hd, hc, hv]
    cases h4 : bits.testBit 4 <;> cases h5 : bits.testBit 5 <;> cases h6 : bits.testBit 6 <;>
      simp

/-! ## C8: checked register access in the unwind context -/

/-- Modelled from the spec: the register counts of `registers_riscv64.h`
(32 general-purpose and 32 floating-point architectural registers);
the header itself is not part of the excerpt. -/
def kNumberOfGpuRegisters : Nat := 32

/-- Modelled from the spec: number of floating-point registers. -/
def kNumberOfFpuRegisters : Nat := 32

/-- `Riscv64Context` from `context_riscv64.h`: per-register saved-value
address slots (null = inaccessible), one extra general-purpose slot for
the PC, plus the memory the non-null addresses point into. -/
structure Riscv64Context where
  gprs : Fin (kNumberOfGpuRegisters + 1) → Option Nat
  fprs : Fin kNumberOfFpuRegisters → Option Nat
  mem : Nat → Nat

/-- `Riscv64Context::IsAccessibleGPR`: in-range check (`DCHECK_LT`)
followed by a null test of the address slot. -/
def isAccessibleGPR (ctx : Riscv64Context) (reg : Nat) : Bool :=
  if h : reg < kNumberOfGpuRegisters + 1 then (ctx.gprs ⟨reg, h⟩).isSome else false

/-- `Riscv64Context::GetGPR`: `CHECK_LT(reg, kNumberOfGpuRegisters)`,
`DCHECK(IsAccessibleGPR(reg))`, then dereference the saved-value
address.  A failed check is a fatal error, embedded as `none`. -/
def getGPR (ctx : Riscv64Context) (reg : Nat) : Option Nat :=
  if h : reg < kNumberOfGpuRegisters then
    match ctx.gprs ⟨reg, by omega⟩ with
    | some addr => some (ctx.mem addr)
    | none => none
  else none

/-- `Riscv64Context::IsAccessibleFPR`. -/
def isAccessibleFPR (ctx : Riscv64Context) (reg : Nat) : Bool :=
  if h : reg < kNumberOfFpuRegisters then (ctx.fprs ⟨reg, h⟩).isSome else false

/-- `Riscv64Context::GetFPR`. -/
def getFPR (ctx : Riscv64Context) (reg : Nat) : Option Nat :=
  if h : reg < kNumberOfFpuRegisters then
    match ctx.fprs ⟨reg, h⟩ with
    | some addr => some (ctx.mem addr)
    | none => none
  else none

/-- C8: for every in-range register index, `GetGPR`/`GetFPR` succeed
exactly when `IsAccessibleGPR`/`IsAccessibleFPR` hold (the address slot
is non-null), in which case they return the value stored at the saved
address; a null slot makes the read a checked failure, never a silently
returned default value. -/
theorem c8_checked_register_access (ctx : Riscv64Context) (reg : Nat)
    (hg : reg < kNumberOfGpuRegisters) :
    ((getGPR ctx reg).isSome ↔ isAccessibleGPR ctx reg)
    ∧ (¬ isAccessibleGPR ctx reg → getGPR ctx reg = none)
    ∧ (∀ h : reg < kNumberOfGpuRegisters + 1, ∀ addr,
        ctx.gprs ⟨reg, h⟩ = some addr → getGPR ctx reg = some (ctx.mem addr))
    ∧ ((getFPR ctx reg).isSome ↔ isAccessibleFPR ctx reg)
    ∧ (¬ isAccessibleFPR ctx reg → getFPR ctx reg = none)
    ∧ (∀ h : reg < kNumberOfFpuRegisters, ∀ addr,
        ctx.fprs ⟨reg, h⟩ = some addr → getFPR ctx reg = some (ctx.mem addr)) := by
  have hg1 : reg < kNumberOfGpuRegisters + 1 := by omega
  have hf : reg < kNumberOfFpuRegisters := hg
  refine ⟨?_, ?_, ?_, ?_, ?_, ?_⟩
  · simp only [getGPR, isAccessibleGPR, dif_pos hg, dif_pos hg1]
    cases h : ctx.gprs ⟨reg, hg1⟩ <;> simp [h]
  · intro hna
    simp only [isAccessibleGPR, dif_pos hg1] at hna
    simp only [getGPR, dif_pos hg]
    cases h : ctx.gprs ⟨reg, hg1⟩ with
    | none => simp
    | some a => rw [h] at hna; simp at hna
  · intro h addr ha
    simp only [getGPR, dif_pos hg]
    rw [ha]
  · simp only [getFPR, isAccessibleFPR, dif_pos hf]
    cases h : ctx.fprs ⟨reg, hf⟩ <;> simp [h]
  · intro hna
    simp only [isAccessibleFPR, dif_pos hf] at hna
    simp only [getFPR, dif_pos hf]
    cases h : ctx.fprs ⟨reg, hf⟩ with
    | none => simp
    | some a => rw [h] at hna; simp at hna
  · intro h addr ha
    simp only [getFPR, dif_pos hf]
    rw [ha]

/-- Witness for C8 at a concrete context: register 5 with a populated
address slot reads the stored value, register 6 with a null slot is a
checked failure. -/
theorem c8_checked_register_access_witness :
    (5 : Nat) < kNumberOfGpuRegisters
    ∧ getGPR
        { gprs := fun r => if r.val = 5 then some 40 else none
          fprs := fun _ => none
          mem := fun a => a + 2 } 5 = some 42 := by
  constructor
  · decide
  · have h := (c8_checked_register_access
      { gprs := fun r => if r.val = 5 then some 40 else none
        fprs := fun _ => none
        mem := fun a => a + 2 } 5 (by decide)).2.2.1 (by decide) 40 (by decide)
    simpa using h

/-! ## C9: the deliberate dex-overflow failure test script -/

/-- Number of members each generated filler class receives
(the loop bound `65500` in the script). -/
def fillerMemberCount : Nat := 65500

/-- `writeFileField` from the generator embedded in the script: a class
header line, one member declaration per loop iteration (numbered from 1),
and a closing brace line. -/
def writeFileField (name typ : String) : List String :=
  ("public class " ++ name ++ " \x7b")
    :: (List.range fillerMemberCount).map (fun i => "    " ++ typ ++ toString (i + 1) ++ ";")
    ++ ["\x7d"]

/-- `writeFileMethod` from the generator embedded in the script. -/
def writeFileMethod (name : String) : List String :=
  ("public class " ++ name ++ " \x7b")
    :: (List.range fillerMemberCount).map
        (fun i => "    public void meth" ++ toString (i + 1) ++ "() \x7b \x7d")
    ++ ["\x7d"]

/-- The three files the script generates before invoking the build. -/
def dexOverflowGeneratedFiles : List (String × List String) :=
  [("src/FillerStatic.java", writeFileField "FillerStatic" "static public int staticInt"),
   ("src/FillerField.java", writeFileField "FillerField" "public int fieldInt"),
   ("src/FillerMethod.java", writeFileMethod "FillerMethod")]

/-- `--api-level 20` passed to `default-build`. -/
def dexOverflowApiLevel : Nat := 20

/-- `export NEED_DEX=true` in the script. -/
def dexOverflowNeedDex : Bool := true

/-- Does `pat` occur at the head of `text`? -/
def headMatches : List Char → List Char → Bool
  | [], _ => true
  | _ :: _, [] => false
  | p :: ps, c :: cs => p = c && headMatches ps cs

/-- Does `pat` occur anywhere in `text` (the `grep -q` of the script,
specialised to a fixed-string pattern)? -/
def hasSub (pat : List Char) : List Char → Bool
  | [] => headMatches pat []
  | c :: cs => headMatches pat (c :: cs) || hasSub pat cs

/-- The exact diagnostic substring the script greps for. -/
def expectedDexError : List Char :=
  "Cannot fit requested classes in a single dex".data

/-- Outcome of the `./default-build` invocation: whether it exited
non-zero, and the text captured into `stderr.txt`. -/
structure DexOverflowBuildOutcome where
  buildFailed : Bool
  stderrText : List Char

/-- Whether the script exits successfully.  The build's own exit status
is discarded (`|| true`), so under `set -e` the script's status is the
status of the final `grep -q "$EXPECTED_ERROR" stderr.txt`. -/
def dexOverflowScriptSucceeds (r : DexOverflowBuildOutcome) : Bool :=
  hasSub expectedDexError r.stderrText

/-- C9 counterexample: the claim says the script succeeds exactly when
the build fails AND stderr contains the diagnostic; but the script
discards the build status, so an outcome where the build succeeded yet
stderr contains the diagnostic makes the script succeed, refuting the
claimed equivalence. -/
theorem c9_dex_overflow_counterexample :
    dexOverflowScriptSucceeds { buildFailed := false, stderrText := expectedDexError } = true
    ∧ ¬ (({ buildFailed := false, stderrText := expectedDexError }
          : DexOverflowBuildOutcome).buildFailed = true
        ∧ hasSub expectedDexError expectedDexError = true) := by
  constructor
  · decide
  · intro h
    exact Bool.false_ne_true h.1

/-- C9 (amended): the generator emits three classes with exactly 65,500
static fields, instance fields and methods respectively, the build is
forced with `NEED_DEX=true` and `--api-level 20`, and the script
succeeds exactly when the captured standard-error text contains the
exact substring `"Cannot fit requested classes in a single dex"` (the
build's own exit status is discarded by `|| true`). -/
theorem c9_dex_overflow (r : DexOverflowBuildOutcome) :
    (writeFileField "FillerStatic" "static public int staticInt").length
        = fillerMemberCount + 2
    ∧ (writeFileField "FillerField" "public int fieldInt").length = fillerMemberCount + 2
    ∧ (writeFileMethod "FillerMethod").length = fillerMemberCount + 2
    ∧ dexOverflowGeneratedFiles.length = 3
    ∧ dexOverflowApiLevel = 20
    ∧ dexOverflowNeedDex = true
    ∧ (dexOverflowScriptSucceeds r = true ↔ hasSub expectedDexError r.stderrText = true) := by
  refine ⟨?_, ?_, ?_, rfl, rfl, rfl, Iff.rfl⟩
  · rw [writeFileField, List.length_append, List.length_cons, List.length_map,
      List.length_range]
    rfl
  · rw [writeFileField, List.length_append, List.length_cons, List.length_map,
      List.length_range]
    rfl
  · rw [writeFileMethod, List.length_append, List.length_cons, List.length_map,
      List.length_range]
    rfl

/-! ## Registers -/

/-- General-purpose registers X0..X31; `constants_riscv64.h` is not in
the excerpt, so registers are represented by their index, with `ZERO`
(x0) the only value the embedded code distinguishes. -/
def GpuRegister := Fin 32
deriving DecidableEq

/-- The zero register x0. -/
def ZERO : GpuRegister := ⟨0, by norm_num⟩

/-- Modelled from the spec: the fixed assembler-internal scratch
register `TMP2` (distinct from x0; its exact index is defined in the
missing `constants_riscv64.h`). -/
def TMP2 : GpuRegister := ⟨30, by norm_num⟩

/-! ## C10: Bcond with equal operand registers -/

/-- `Riscv64Assembler::BranchCondition` (order as in the header). -/
inductive BranchCondition where
  | kCondLT
  | kCondGE
  | kCondLE
  | kCondGT
  | kCondLTZ
  | kCondGEZ
  | kCondLEZ
  | kCondGTZ
  | kCondEQ
  | kCondNE
  | kCondEQZ
  | kCondNEZ
  | kCondLTU
  | kCondGEU
  | kUncond
deriving DecidableEq

/-- `Riscv64Assembler::Branch::IsNop`: with equal registers the
conditions LT, GT, NE, LTU can never hold. -/
def branchIsNop (condition : BranchCondition) (lhs rhs : GpuRegister) : Bool :=
  match condition with
  | .kCondLT | .kCondGT | .kCondNE | .kCondLTU => lhs = rhs
  | _ => false

/-- `Riscv64Assembler::Branch::IsUncond`: `kUncond` itself, or one of
GE, LE, EQ, GEU with equal registers (always true). -/
def branchIsUncond (condition : BranchCondition) (lhs rhs : GpuRegister) : Bool :=
  match condition with
  | .kUncond => true
  | .kCondGE | .kCondLE | .kCondEQ | .kCondGEU => lhs = rhs
  | _ => false

/-- The condition stored by the conditional `Branch` constructor: the
register-class `CHECK`s, the `CHECK(!IsNop(...))`, then the rewrite of
always-true conditions to `kUncond`.  `none` is a fatal check failure. -/
def branchCtorCondition (condition : BranchCondition) (lhs rhs : GpuRegister) :
    Option BranchCondition :=
  let regsOk : Bool :=
    match condition with
    | .kCondEQ | .kCondNE | .kCondLT | .kCondGE | .kCondLE | .kCondGT
    | .kCondLTU | .kCondGEU => lhs ≠ ZERO && rhs ≠ ZERO
    | .kCondLTZ | .kCondGEZ | .kCondLEZ | .kCondGTZ | .kCondEQZ | .kCondNEZ =>
        lhs ≠ ZERO && rhs = ZERO
    | .kUncond => false
  if regsOk then
    if branchIsNop condition lhs rhs then none
    else some (if branchIsUncond condition lhs rhs then .kUncond else condition)
  else none

/-- Observable outcome of `Riscv64Assembler::Bcond`. -/
inductive BcondOutcome where
  | nop
  | emitted (storedCondition : BranchCondition)
  | checkFailure
deriving DecidableEq

/-- `Riscv64Assembler::Bcond`: return early (emitting nothing) when the
branch is a statically-known no-op, otherwise construct the branch. -/
def bcond (condition : BranchCondition) (lhs rhs : GpuRegister) : BcondOutcome :=
  if branchIsNop condition lhs rhs then .nop
  else
    match branchCtorCondition condition lhs rhs with
    | some c => .emitted c
    | none => .checkFailure

/-- C10 counterexample: as stated the claim fails for the zero
register: `Bcond(kCondGE, ZERO, ZERO)` hits the constructor's
`CHECK_NE(lhs, ZERO)` (a fatal assertion) instead of becoming an
unconditional branch. -/
theorem c10_bcond_counterexample :
    bcond .kCondGE ZERO ZERO = .checkFailure
    ∧ ∀ c, bcond .kCondGE ZERO ZERO ≠ .emitted c := by
  refine ⟨by decide, ?_⟩
  intro c h
  rw [show bcond .kCondGE ZERO ZERO = .checkFailure from by decide] at h
  exact absurd h (by simp)

/-- C10 (amended): for a conditional branch requested via `Bcond` with
both operand registers equal: LT, GT, NE, LTU emit no instruction at
all; GE, LE, EQ, GEU are converted to an unconditional branch at
creation, provided the shared register is not the zero register
(otherwise a fatal register-class assertion fires instead). -/
theorem c10_bcond_equal_registers (condition : BranchCondition) (r : GpuRegister) :
    ((condition = .kCondLT ∨ condition = .kCondGT ∨ condition = .kCondNE
        ∨ condition = .kCondLTU) → bcond condition r r = .nop)
    ∧ ((condition = .kCondGE ∨ condition = .kCondLE ∨ condition = .kCondEQ
        ∨ condition = .kCondGEU) → r ≠ ZERO → bcond condition r r = .emitted .kUncond) := by
  constructor
  · rintro (rfl | rfl | rfl | rfl) <;> simp [bcond, branchIsNop]
  · rintro (rfl | rfl | rfl | rfl) hr <;>
      simp [bcond, branchIsNop, branchCtorCondition, branchIsUncond, hr]

/-- Witness for C10 at concrete inputs: `Bcond(kCondLT, x5, x5)` is a
no-op and `Bcond(kCondEQ, x5, x5)` becomes unconditional. -/
theorem c10_bcond_equal_registers_witness :
    bcond .kCondLT ⟨5, by norm_num⟩ ⟨5, by norm_num⟩ = .nop
    ∧ bcond .kCondEQ ⟨5, by norm_num⟩ ⟨5, by norm_num⟩ = .emitted .kUncond := by
  exact ⟨(c10_bcond_equal_registers .kCondLT ⟨5, by norm_num⟩).1 (Or.inl rfl),
    (c10_bcond_equal_registers .kCondEQ ⟨5, by norm_num⟩).2 (Or.inr (Or.inr (Or.inl rfl)))
      (by decide)⟩

/-! ## C3: JNI calling convention parameter placement -/

/-- `kMaxFloatOrDoubleRegisterArguments` (8 FA registers). -/
def kMaxFloatOrDoubleRegisterArguments : Nat := 8

/-- `kMaxIntLikeRegisterArguments` (8 A registers). -/
def kMaxIntLikeRegisterArguments : Nat := 8

/-- An argument register: `kFpuArgumentRegisters[i]` = FA(i) or
`kGpuArgumentRegisters[i]` = A(i). -/
inductive ArgReg where
  | fa (i : Nat)
  | a (i : Nat)
deriving DecidableEq

/-- The iterator state the calling convention reads
(`itr_args_`, `itr_float_and_doubles_`) together with the kind of the
current parameter (`IsCurrentParamAFloatOrDouble()`). -/
structure JniItr where
  itrArgs : Nat
  itrFloatAndDoubles : Nat
  isFloatOrDouble : Bool

/-- `Riscv64JniCallingConvention::IsCurrentParamInRegister` from
`calling_convention_riscv64.cc`. -/
def jniIsCurrentParamInRegister (s : JniItr) : Bool :=
  let gpArgs := s.itrArgs - s.itrFloatAndDoubles
  if s.isFloatOrDouble then
    let canSpilledToGp := if gpArgs < 8 then 8 - gpArgs else 0
    s.itrFloatAndDoubles < kMaxFloatOrDoubleRegisterArguments + canSpilledToGp
  else
    let spilledToGp :=
      if gpArgs < 8 then
        if s.itrFloatAndDoubles ≥ kMaxFloatOrDoubleRegisterArguments then
          s.itrFloatAndDoubles - kMaxFloatOrDoubleRegisterArguments
        else 0
      else 0
    gpArgs + spilledToGp < kMaxIntLikeRegisterArguments

/-- `Riscv64JniCallingConvention::IsCurrentParamOnStack`. -/
def jniIsCurrentParamOnStack (s : JniItr) : Bool :=
  ! jniIsCurrentParamInRegister s

/-- `Riscv64JniCallingConvention::CurrentParamRegister`; `none` is a
fatal `CHECK` failure. -/
def jniCurrentParamRegister (s : JniItr) : Option ArgReg :=
  if jniIsCurrentParamInRegister s then
    let gpReg := s.itrArgs - s.itrFloatAndDoubles
    if s.isFloatOrDouble then
      if s.itrFloatAndDoubles < kMaxFloatOrDoubleRegisterArguments then
        some (.fa s.itrFloatAndDoubles)
      else
        let spilledToGp := s.itrFloatAndDoubles - kMaxFloatOrDoubleRegisterArguments
        if gpReg + spilledToGp < kMaxIntLikeRegisterArguments then
          some (.a (gpReg + spilledToGp))
        else none
    else
      let spilledToGp :=
        if s.itrFloatAndDoubles ≥ kMaxFloatOrDoubleRegisterArguments then
          s.itrFloatAndDoubles - kMaxFloatOrDoubleRegisterArguments
        else 0
      if gpReg + spilledToGp < kMaxIntLikeRegisterArguments then
        some (.a (gpReg + spilledToGp))
      else none
  else none

/-- Number of float/double parameters among the first `i` of a
parameter list (`true` = float/double): the value of
`itr_float_and_doubles_` when the iterator reaches index `i`. -/
def fpBefore (ps : List Bool) (i : Nat) : Nat :=
  ((ps.take i).filter id).length

/-- The iterator state at argument index `i` of parameter list `ps`,
iterated in argument order. -/
def jniItrAt (ps : List Bool) (i : Nat) (h : i < ps.length) : JniItr :=
  { itrArgs := i, itrFloatAndDoubles := fpBefore ps i, isFloatOrDouble := ps.get ⟨i, h⟩ }

theorem fpBefore_le (ps : List Bool) (i : Nat) : fpBefore ps i ≤ i := by
  calc ((ps.take i).filter id).length ≤ (ps.take i).length := List.length_filter_le _ _
  _ ≤ i := by rw [List.length_take]; omega

/-- C3: iterating a JNI parameter list in argument order, write
`gp` for the number of integer-like parameters already iterated.  A
float/double parameter that is the `(8+k)`-th float/double (`k ≥ 0`)
is placed in a register exactly when `gp + k < 8`, and then in the
integer argument register `A(gp + k)` — the `k`-th integer register
still available after the integer-like arguments and the `k` earlier
float/double spills — rather than on the stack.  An integer-like
parameter is placed on the stack exactly when the integer registers
remaining after the float/double spill-over are exhausted, i.e. when
`gp + (fp - 8 when fp > 8 else 0) ≥ 8` where `fp` counts the
float/double parameters already iterated. -/
theorem c3_jni_param_placement (ps : List Bool) (i : Nat) (h : i < ps.length) :
    (∀ k, ps.get ⟨i, h⟩ = true → fpBefore ps i = 8 + k →
      ((jniIsCurrentParamInRegister (jniItrAt ps i h) = true
          ↔ (i - fpBefore ps i) + k < 8)
        ∧ ((i - fpBefore ps i) + k < 8 →
            jniCurrentParamRegister (jniItrAt ps i h)
              = some (.a ((i - fpBefore ps i) + k)))))
    ∧ (ps.get ⟨i, h⟩ = false →
        (jniIsCurrentParamOnStack (jniItrAt ps i h) = true
          ↔ (i - fpBefore ps i) + (fpBefore ps i - 8) ≥ 8)) := by
  have hle : fpBefore ps i ≤ i := fpBefore_le ps i
  constructor
  · intro k hfp hcount
    constructor
    · simp only [jniIsCurrentParamInRegister, jniItrAt, hfp, hcount,
        kMaxFloatOrDoubleRegisterArguments, if_pos, if_true]
      constructor
      · intro hlt
        by_cases hgp : i - (8 + k) < 8
        · simp [hgp] at hlt
          omega
        · simp [hgp] at hlt
      · intro hlt
        have hgp : i - (8 + k) < 8 := by omega
        simp [hgp]
        omega
    · intro hreg
      have hgp : i - (8 + k) < 8 := by omega
      simp only [jniCurrentParamRegister, jniItrAt, hfp, hcount]
      rw [if_pos, if_pos,
        if_neg (by simp only [kMaxFloatOrDoubleRegisterArguments]; omega :
          ¬ 8 + k < kMaxFloatOrDoubleRegisterArguments)]
      · simp only [kMaxFloatOrDoubleRegisterArguments, Nat.add_sub_cancel_left]
        rw [if_pos (by simp only [kMaxIntLikeRegisterArguments]; omega)]
      · simp
      · simp only [jniIsCurrentParamInRegister, hfp, if_true,
          kMaxFloatOrDoubleRegisterArguments]
        simp [hgp]
        omega
  · intro hfp
    simp only [jniIsCurrentParamOnStack, jniIsCurrentParamInRegister, jniItrAt, hfp,
      Bool.not_eq_true', kMaxFloatOrDoubleRegisterArguments, kMaxIntLikeRegisterArguments,
      if_false]
    by_cases hgp : i - fpBefore ps i < 8 <;>
      by_cases hcnt : fpBefore ps i ≥ 8 <;> simp [hgp, hcnt] <;> omega

/-- Witness for C3 on a concrete parameter list: nine float/double
parameters followed by one integer parameter.  The ninth float/double
(index 8, `k = 0`, no integer-like parameters before it) goes to
integer register `A0`, and the integer parameter after it is still in
a register (one spill consumed only one of the eight). -/
theorem c3_jni_param_placement_witness :
    (8 : Nat) < ([true, true, true, true, true, true, true, true, true, false] : List Bool).length
    ∧ jniCurrentParamRegister
        (jniItrAt [true, true, true, true, true, true, true, true, true, false] 8 (by decide))
        = some (.a 0) := by
  refine ⟨by decide, ?_⟩
  have h := ((c3_jni_param_placement
      [true, true, true, true, true, true, true, true, true, false] 8 (by decide)).1 0
      (by decide) (by decide)).2 (by decide)
  simpa using h

/-! ## C4: @CriticalNative frame sizes -/

/-- Return-type kinds a JNI convention distinguishes. -/
inductive RetKind where
  | void
  | intLike
  | smallInt
  | fpLike
deriving DecidableEq

/-- A JNI calling convention instance.  `params` lists the arguments in
convention order (`true` = float/double), including the receiver for
instance methods. -/
structure JniConv where
  isStatic : Bool
  isSynchronized : Bool
  isCriticalNative : Bool
  params : List Bool
  ret : RetKind

/-- Pointer/frame word width (`kFramePointerSize`, 8 bytes). -/
def kFramePointerSize : Nat := 8

/-- Modelled from the spec: the platform stack alignment constant all
frame sizes are rounded up to (`kStackAlignment`, 16 bytes on RV64). -/
def kStackAlignment : Nat := 16

/-- Modelled from the spec: `kRiscv64StackAlignment` from the missing
`jni_frame_riscv64.h`. -/
def kRiscv64StackAlignment : Nat := 16

/-- `RoundUp(x, n)` from `base/bit_utils.h`. -/
def roundUp (x n : Nat) : Nat := (x + n - 1) / n * n

/-- Modelled from the spec: `JniCallingConvention::SpillsMethod` — an
`@CriticalNative` call deliberately forgoes the managed frame, so the
method pointer is spilled exactly for non-critical methods. -/
def spillsMethod (c : JniConv) : Bool := ! c.isCriticalNative

/-- Modelled from the spec:
`JniCallingConvention::HasLocalReferenceSegmentState` — local-reference
bookkeeping exists exactly for non-critical methods. -/
def hasLocalReferenceSegmentState (c : JniConv) : Bool := ! c.isCriticalNative

/-- Modelled from the spec: `JniCallingConvention::SpillsReturnValue` —
a return-value spill slot is required only for non-critical
synchronized methods with a non-void return type. -/
def spillsReturnValue (c : JniConv) : Bool :=
  ! c.isCriticalNative && c.isSynchronized && c.ret ≠ .void

/-- Modelled from the spec: `SizeOfReturnValue` for a spilled return
value (one frame word here; only its being added matters). -/
def sizeOfReturnValue (_c : JniConv) : Nat := kFramePointerSize

/-- `Riscv64JniCallingConvention::UseTailCall`: the commented-out
`OutFrameSize() == 0` criterion is replaced by an unconditional
`return false`. -/
def useTailCall (_c : JniConv) : Bool := false

/-- Size of `kCalleeSaveRegisters` in `calling_convention_riscv64.cc`:
FS0–FS11 (12 registers) plus S2–S10 and S0 (10 registers). -/
def kCalleeSaveRegistersCount : Nat := 22

/-- `Riscv64JniCallingConvention::CalleeSaveRegisters().size()`:
empty for a critical-native tail call, just RA for a critical-native
non-tail-call, the full set otherwise. -/
def calleeSaveRegistersCount (c : JniConv) : Nat :=
  if c.isCriticalNative then
    if useTailCall c then 0 else 1
  else kCalleeSaveRegistersCount

/-- `Riscv64JniCallingConvention::FrameSize`; `none` is a fatal `CHECK`
failure. -/
def frameSize (c : JniConv) : Option Nat :=
  if c.isCriticalNative then
    if spillsMethod c || hasLocalReferenceSegmentState c || spillsReturnValue c then none
    else some 0
  else
    let methodPtrSize := kFramePointerSize
    let raAndCalleeSaveAreaSize := (calleeSaveRegistersCount c + 1) * kFramePointerSize
    let raAndCalleeSaveAreaSize :=
      if c.isCriticalNative then raAndCalleeSaveAreaSize - kFramePointerSize
      else raAndCalleeSaveAreaSize
    let totalSize := methodPtrSize + raAndCalleeSaveAreaSize
    let totalSize :=
      if spillsReturnValue c then totalSize + sizeOfReturnValue c else totalSize
    some (roundUp totalSize kStackAlignment)

/-- Modelled from the spec: `NumberOfExtraArgumentsForJni` — the
implicit `JNIEnv*` (plus `jclass` for static methods) prepended by JNI;
`@CriticalNative` forgoes both. -/
def numberOfExtraArgumentsForJni (c : JniConv) : Nat :=
  if c.isCriticalNative then 0 else if c.isStatic then 2 else 1

/-- `NumArgs()`: the managed argument count. -/
def numArgs (c : JniConv) : Nat := c.params.length

/-- `NumFloatOrDoubleArgs()`. -/
def numFloatOrDoubleArgs (c : JniConv) : Nat := (c.params.filter id).length

/-- Modelled from the spec: `GetNativeOutArgsSize` from the missing
`jni_frame_riscv64.h` — the outgoing-argument area is computed from the
total argument count, one frame word per argument. -/
def getNativeOutArgsSize (numFpArgs numNonFpArgs : Nat) : Nat :=
  (numFpArgs + numNonFpArgs) * kFramePointerSize

/-- Modelled from the spec: `RequiresSmallResultTypeExtension` — the
return value needs sign/zero-extension exactly for small integer
results. -/
def requiresSmallResultTypeExtension (c : JniConv) : Bool := c.ret = .smallInt

/-- `Riscv64JniCallingConvention::OutFrameSize`: outgoing-argument
area, plus one pointer-width slot for RA reserved unconditionally for
`@CriticalNative` (the upstream conditional on stack args / result
extension is commented out), rounded up to the stack alignment. -/
def outFrameSize (c : JniConv) : Nat :=
  let allArgs := numberOfExtraArgumentsForJni c + numArgs c
  let numFpArgs := numFloatOrDoubleArgs c
  let numNonFpArgs := allArgs - numFpArgs
  let size := getNativeOutArgsSize numFpArgs numNonFpArgs
  let size := if c.isCriticalNative then size + kFramePointerSize else size
  roundUp size kRiscv64StackAlignment

/-- The out-frame size the claim prescribes: the RA slot is reserved
exactly when the call cannot be converted to a tail call, glossed as
"stack arguments required, or the return value needs
sign/zero-extension" (this follows the claim's words, for comparison
with `outFrameSize`). -/
def c4ClaimOutFrameSize (c : JniConv) : Nat :=
  let allArgs := numberOfExtraArgumentsForJni c + numArgs c
  let numFpArgs := numFloatOrDoubleArgs c
  let numNonFpArgs := allArgs - numFpArgs
  let size := getNativeOutArgsSize numFpArgs numNonFpArgs
  let size :=
    if c.isCriticalNative && (size ≠ 0 || requiresSmallResultTypeExtension c) then
      size + kFramePointerSize
    else size
  roundUp size kRiscv64StackAlignment

/-- C4 counterexample: an `@CriticalNative` static method with no
arguments and a void return needs no stack arguments and no result
extension, so under the claim's condition no RA slot would be reserved
and the out-frame size would be 0; the code reserves the slot
unconditionally and returns 16. -/
theorem c4_critical_native_counterexample :
    outFrameSize
        { isStatic := true, isSynchronized := false, isCriticalNative := true,
          params := [], ret := .void } = 16
    ∧ c4ClaimOutFrameSize
        { isStatic := true, isSynchronized := false, isCriticalNative := true,
          params := [], ret := .void } = 0 := by
  constructor <;> decide

/-- C4 (amended): for an `@CriticalNative` method, `FrameSize()`
returns 0 and its `CHECK`s (no method-pointer spill, no
local-reference segment state, no return-value spill) hold; tail calls
are never used (`UseTailCall()` is unconditionally false), so
`OutFrameSize()` reserves the extra pointer-width return-address slot
for every `@CriticalNative` call, making the outgoing frame non-empty
even for a parameterless void method. -/
theorem c4_critical_native_frame (c : JniConv) (hc : c.isCriticalNative = true) :
    frameSize c = some 0
    ∧ spillsMethod c = false
    ∧ hasLocalReferenceSegmentState c = false
    ∧ spillsReturnValue c = false
    ∧ useTailCall c = false
    ∧ outFrameSize c
        = roundUp
            (getNativeOutArgsSize (numFloatOrDoubleArgs c)
              (numArgs c - numFloatOrDoubleArgs c) + kFramePointerSize)
            kRiscv64StackAlignment
    ∧ outFrameSize c ≠ 0 := by
  have hsm : spillsMethod c = false := by simp [spillsMethod, hc]
  have hlr : hasLocalReferenceSegmentState c = false := by
    simp [hasLocalReferenceSegmentState, hc]
  have hsr : spillsReturnValue c = false := by simp [spillsReturnValue, hc]
  refine ⟨?_, hsm, hlr, hsr, rfl, ?_, ?_⟩
  · simp [frameSize, hc, hsm, hlr, hsr]
  · simp [outFrameSize, hc, numberOfExtraArgumentsForJni]
  · simp only [outFrameSize, hc, numberOfExtraArgumentsForJni, if_true, if_pos]
    have h8 : 8 ≤ (getNativeOutArgsSize (numFloatOrDoubleArgs c)
        (0 + numArgs c - numFloatOrDoubleArgs c) + kFramePointerSize) := by
      simp [kFramePointerSize]
    intro hz
    rw [show kRiscv64StackAlignment = 16 from rfl] at hz
    simp only [roundUp] at hz
    omega

/-- Witness for C4 at a concrete convention (critical native, one
integer parameter, int return): managed frame 0, out frame 16. -/
theorem c4_critical_native_frame_witness :
    ({ isStatic := true, isSynchronized := false, isCriticalNative := true,
        params := [false], ret := .intLike } : JniConv).isCriticalNative = true
    ∧ frameSize
        { isStatic := true, isSynchronized := false, isCriticalNative := true,
          params := [false], ret := .intLike } = some 0 := by
  exact ⟨rfl,
    (c4_critical_native_frame
      { isStatic := true, isSynchronized := false, isCriticalNative := true,
        params := [false], ret := .intLike } rfl).1⟩

/-! ## C5: NaN-safe truncation and min/max helpers -/

/-- An abstract floating-point value: NaN or an exact numeric value.
Exact rationals suffice for the NaN-propagation and zero-forcing
properties these helpers are about. -/
inductive FpVal where
  | nan
  | num (q : ℚ)
deriving DecidableEq

/-- ISA `feq.s`/`feq.d`: 1 when both operands are non-NaN and equal,
0 otherwise (in particular 0 whenever an operand is NaN). -/
def feqFp (a b : FpVal) : Nat :=
  match a, b with
  | .num qa, .num qb => if qa = qb then 1 else 0
  | _, _ => 0

/-- ISA `fmin`: for the non-NaN operands the helpers feed it, the
numeric minimum (one-NaN cases follow the ISA's
"return the non-NaN operand" rule; they are unreachable here). -/
def fminFp (a b : FpVal) : FpVal :=
  match a, b with
  | .num qa, .num qb => .num (min qa qb)
  | .nan, x => x
  | x, .nan => x

/-- ISA `fmax`. -/
def fmaxFp (a b : FpVal) : FpVal :=
  match a, b with
  | .num qa, .num qb => .num (max qa qb)
  | .nan, x => x
  | x, .nan => x

/-- Round toward zero: the integer part of a rational
(`Int` division truncates toward zero). -/
def ratRTZ (q : ℚ) : Int := q.num / (q.den : Int)

/-- Saturation of an out-of-range conversion result, as the ISA
mandates for `fcvt` (NaN converts to the maximum). -/
def fcvtClamp (lo hi : Int) (a : FpVal) : Int :=
  match a with
  | .nan => hi
  | .num q => max lo (min hi (ratRTZ q))

/-- ISA `fcvt.l.s` / `fcvt.l.d` with round-toward-zero. -/
def fcvtL (a : FpVal) : Int := fcvtClamp (-(2 ^ 63)) (2 ^ 63 - 1) a

/-- ISA `fcvt.w.s` / `fcvt.w.d` with round-toward-zero. -/
def fcvtW (a : FpVal) : Int := fcvtClamp (-(2 ^ 31)) (2 ^ 31 - 1) a

/-- `Riscv64Assembler::TruncLS` (and `TruncLD`): the value the emitted
sequence leaves in `rd`.  `Xor(rd, rd, rd)` zeroes `rd`;
`FEqS(TMP, fs, fs)` puts 0 in `TMP` iff `fs` is NaN; `Beqzc` then skips
the `FCvtLS(rd, fs, RTZ)`. -/
def truncL (fs : FpVal) : Int :=
  let rd : Int := 0
  let tmp := feqFp fs fs
  if tmp = 0 then rd else fcvtL fs

/-- `Riscv64Assembler::TruncWS` (and `TruncWD`): same shape with the
32-bit conversion. -/
def truncW (fs : FpVal) : Int :=
  let rd : Int := 0
  let tmp := feqFp fs fs
  if tmp = 0 then rd else fcvtW fs

/-- `Riscv64Assembler::FJMaxMinS` (and `FJMaxMinD`): the value the
emitted sequence leaves in `fd`.  Classify `fs` (branch to `labelFS`
moving `fs` when it is NaN), then `ft` (branch to `labelFT` moving
`ft`), otherwise the ISA min/max of the two non-NaN operands. -/
def fjMaxMin (fs ft : FpVal) (isMin : Bool) : FpVal :=
  let tmp := feqFp fs fs
  if tmp = 0 then fs
  else
    let tmp := feqFp ft ft
    if tmp = 0 then ft
    else if isMin then fminFp fs ft else fmaxFp fs ft

/-- C5: the truncate-to-integer helpers leave exactly zero in the
destination when the source is NaN and the round-toward-zero
(saturating) conversion result otherwise; the NaN-safe min/max helpers
return NaN whenever either operand is NaN — in both operand positions —
and the ordinary min/max of the two values otherwise. -/
theorem c5_nan_safe_helpers (fs ft : FpVal) (isMin : Bool) :
    (truncL .nan = 0 ∧ truncW .nan = 0)
    ∧ (∀ q : ℚ, truncL (.num q) = fcvtL (.num q) ∧ truncW (.num q) = fcvtW (.num q))
    ∧ ((fs = .nan ∨ ft = .nan) → fjMaxMin fs ft isMin = .nan)
    ∧ (∀ qa qb : ℚ,
        fjMaxMin (.num qa) (.num qb) true = .num (min qa qb)
        ∧ fjMaxMin (.num qa) (.num qb) false = .num (max qa qb)) := by
  refine ⟨⟨rfl, rfl⟩, ?_, ?_, ?_⟩
  · intro q
    constructor <;> simp [truncL, truncW, feqFp]
  · rintro (rfl | rfl)
    · simp [fjMaxMin, feqFp]
    · cases fs with
      | nan => simp [fjMaxMin, feqFp]
      | num qa => simp [fjMaxMin, feqFp]
  · intro qa qb
    constructor <;> simp [fjMaxMin, feqFp, fminFp, fmaxFp]

/-- Witness for C5 on the spec's concrete operand pairs:
min(NaN, 1) = NaN, max(1, NaN) = NaN, min(1, 2) = 1, max(1, 2) = 2,
and truncating NaN gives 0. -/
theorem c5_nan_safe_helpers_witness :
    fjMaxMin .nan (.num 1) true = .nan
    ∧ fjMaxMin (.num 1) .nan false = .nan
    ∧ fjMaxMin (.num 1) (.num 2) true = .num 1
    ∧ fjMaxMin (.num 1) (.num 2) false = .num 2
    ∧ truncL .nan = 0 ∧ truncW .nan = 0 := by
  refine ⟨(c5_nan_safe_helpers .nan (.num 1) true).2.2.1 (Or.inl rfl),
    (c5_nan_safe_helpers (.num 1) .nan false).2.2.1 (Or.inr rfl),
    ?_, ?_,
    (c5_nan_safe_helpers .nan .nan true).1.1,
    (c5_nan_safe_helpers .nan .nan true).1.2⟩
  · have h := ((c5_nan_safe_helpers .nan .nan true).2.2.2 1 2).1
    rw [h]
    norm_num
  · have h := ((c5_nan_safe_helpers .nan .nan true).2.2.2 1 2).2
    rw [h]
    norm_num

/-! ## C1: 64-bit constant materialization

Two encoders appear in the excerpt: `Riscv64Assembler::LoadConst64` in
`assembler_riscv64.cc` (a fixed load-low/load-high/combine sequence),
and the MIPS-derived strategy selector `TemplateLoadConst64` in the
older assembler header, which records the chosen strategy in a path
bitmask.  Both are embedded and proved to leave exactly the requested
value in `rd`. -/

/-- The unsigned 64-bit bit pattern of a C `int64_t`/`uint64_t` value. -/
def toU64 (v : Int) : Nat := (v % (2 ^ 64)).toNat

/-- Truncation to an encoded 16-bit immediate field
(a C implicit conversion to `uint16_t`). -/
def enc16 (v : Int) : Nat := (v % (2 ^ 16)).toNat

/-- Truncation to an encoded 12-bit immediate field. -/
def enc12 (v : Int) : Nat := (v % (2 ^ 12)).toNat

/-- Truncation to an encoded 20-bit immediate field. -/
def enc20 (v : Int) : Nat := (v % (2 ^ 20)).toNat

/-- Sign extension of an encoded 12-bit field. -/
def sext12 (f : Nat) : Int := if f % 2 ^ 12 < 2 ^ 11 then (f % 2 ^ 12 : Nat) else (f % 2 ^ 12 : Nat) - 2 ^ 12

/-- Sign extension of an encoded 16-bit field. -/
def sext16 (f : Nat) : Int := if f % 2 ^ 16 < 2 ^ 15 then (f % 2 ^ 16 : Nat) else (f % 2 ^ 16 : Nat) - 2 ^ 16

/-- Sign extension of a 32-bit pattern to a 64-bit pattern. -/
def sext32n (t : Nat) : Nat :=
  if t % 2 ^ 32 < 2 ^ 31 then t % 2 ^ 32 else t % 2 ^ 32 + (2 ^ 64 - 2 ^ 32)

/-- `static_cast<int32_t>` of a C `int64_t`. -/
def sInt32 (v : Int) : Int :=
  if v % (2 ^ 32) < 2 ^ 31 then v % (2 ^ 32) else v % (2 ^ 32) - 2 ^ 32

/-- `IsInt<12>(v)` from `base/bit_utils.h`. -/
def isInt12 (v : Int) : Prop := -(2 ^ 11) ≤ v ∧ v < 2 ^ 11

/-- `IsInt<16>(v)`. -/
def isInt16 (v : Int) : Prop := -(2 ^ 15) ≤ v ∧ v < 2 ^ 15

/-- `IsUint<16>(v)`. -/
def isUint16 (v : Int) : Prop := 0 ≤ v ∧ v < 2 ^ 16

/-- `IsInt<32>(v)`. -/
def isInt32 (v : Int) : Prop := -(2 ^ 31) ≤ v ∧ v < 2 ^ 31

instance (v : Int) : Decidable (isInt12 v) := by unfold isInt12; infer_instance
instance (v : Int) : Decidable (isInt16 v) := by unfold isInt16; infer_instance
instance (v : Int) : Decidable (isUint16 v) := by unfold isUint16; infer_instance
instance (v : Int) : Decidable (isInt32 v) := by unfold isInt32; infer_instance

/-- A register file; values are 64-bit patterns. -/
def RegFile := GpuRegister → Nat

/-- Register write; the zero register is immutable. -/
def writeReg (regs : RegFile) (rd : GpuRegister) (v : Nat) : RegFile :=
  if rd = ZERO then regs else fun r => if r = rd then v else regs r

theorem writeReg_self (regs : RegFile) (rd : GpuRegister) (v : Nat) (h : rd ≠ ZERO) :
    writeReg regs rd v rd = v := by
  simp [writeReg, h]

theorem writeReg_other (regs : RegFile) (rd r : GpuRegister) (v : Nat) (h : r ≠ rd) :
    writeReg regs rd v r = regs r := by
  unfold writeReg
  by_cases hz : rd = ZERO
  · simp [hz]
  · simp [hz, h]

/-- The RISC-V instructions `LoadConst32`/`LoadConst64` emit, with the
encoded immediate fields. -/
inductive RvInstr where
  | addi (rd rs : GpuRegister) (imm12 : Nat)
  | addiw (rd rs : GpuRegister) (imm12 : Nat)
  | lui (rd : GpuRegister) (imm20 : Nat)
  | slli (rd rs : GpuRegister) (shamt : Nat)
  | srli (rd rs : GpuRegister) (shamt : Nat)
  | orr (rd rs1 rs2 : GpuRegister)
deriving DecidableEq

/-- RV64 semantics of one instruction (RV64I as the emitted sequences
use it: `addi` adds the sign-extended immediate, `addiw` additionally
truncates to 32 bits and sign-extends, `lui` loads `imm20 << 12`
sign-extended from 32 bits, shifts and `or` are the 64-bit bitwise
operations). -/
def rvStep (regs : RegFile) : RvInstr → RegFile
  | .addi rd rs imm12 => writeReg regs rd (toU64 (regs rs + sext12 imm12))
  | .addiw rd rs imm12 => writeReg regs rd (sext32n ((regs rs + toU64 (sext12 imm12)) % 2 ^ 32))
  | .lui rd imm20 => writeReg regs rd (sext32n (imm20 % 2 ^ 20 * 2 ^ 12))
  | .slli rd rs shamt => writeReg regs rd (regs rs * 2 ^ (shamt % 64) % 2 ^ 64)
  | .srli rd rs shamt => writeReg regs rd (regs rs % 2 ^ 64 / 2 ^ (shamt % 64))
  | .orr rd rs1 rs2 => writeReg regs rd ((regs rs1 ||| regs rs2) % 2 ^ 64)

/-- Execution of an emitted sequence. -/
def rvExec (prog : List RvInstr) (regs : RegFile) : RegFile :=
  prog.foldl rvStep regs

theorem rvExec_nil (regs : RegFile) : rvExec [] regs = regs := rfl

theorem rvExec_cons (i : RvInstr) (is : List RvInstr) (regs : RegFile) :
    rvExec (i :: is) regs = rvExec is (rvStep regs i) := rfl

theorem rvExec_append (xs ys : List RvInstr) (regs : RegFile) :
    rvExec (xs ++ ys) regs = rvExec ys (rvExec xs regs) := by
  simp [rvExec, List.foldl_append]

/-- `Riscv64Assembler::LoadConst32` from `assembler_riscv64.cc`:
`addi` for a 12-bit value, otherwise `lui` of the high 20 bits
(corrected by the carry of the low 12 bits) followed by `addiw` of the
low 12 bits when they are non-zero. -/
def loadConst32Instrs (rd : GpuRegister) (value : Int) : List RvInstr :=
  if isInt12 value then [.addi rd ZERO (enc12 value)]
  else
    let l := value % (2 ^ 12)
    let h := value / (2 ^ 12)
    let h := if 2 ^ 11 ≤ l then h + 1 else h
    .lui rd (enc20 h) :: (if l ≠ 0 then [.addiw rd rd (enc12 l)] else [])

/-- `Riscv64Assembler::LoadConst64` from `assembler_riscv64.cc`
(lines 1042-1059): `LoadConst32` for a 32-bit value, otherwise load the
low half into the `TMP2` scratch, the high half into `rd`, and combine
with two shifts, a logical right shift and an `or`. -/
def loadConst64Instrs (rd : GpuRegister) (value : Int) : List RvInstr :=
  if isInt32 value then loadConst32Instrs rd value
  else
    let hi := value / (2 ^ 32)
    let lo := sInt32 value
    loadConst32Instrs TMP2 lo ++ loadConst32Instrs rd hi
      ++ [.slli rd rd 32, .slli TMP2 TMP2 32, .srli TMP2 TMP2 32, .orr rd rd TMP2]

theorem loadConst32_exec (rd : GpuRegister) (v : Int) (regs : RegFile)
    (h32 : isInt32 v) (hrd : rd ≠ ZERO) (hz : regs ZERO = 0) :
    (rvExec (loadConst32Instrs rd v) regs) rd = toU64 v
    ∧ ∀ r, r ≠ rd → (rvExec (loadConst32Instrs rd v) regs) r = regs r := by
  unfold loadConst32Instrs
  by_cases h12 : isInt12 v
  · simp only [if_pos h12, rvExec_cons, rvExec_nil, rvStep]
    refine ⟨?_, fun r hr => writeReg_other _ _ _ _ hr⟩
    rw [writeReg_self _ _ _ hrd, hz]
    unfold toU64 sext12 enc12
    unfold isInt12 at h12
    split_ifs <;> omega
  · by_cases hl : v % (2 ^ 12) ≠ 0
    · simp only [if_neg h12, if_pos hl, rvExec_cons, rvExec_nil, rvStep]
      refine ⟨?_, ?_⟩
      · rw [writeReg_self _ _ _ hrd, writeReg_self _ _ _ hrd]
        unfold toU64 sext32n sext12 enc12 enc20
        unfold isInt32 at h32
        unfold isInt12 at h12
        split_ifs <;> omega
      · intro r hr
        rw [writeReg_other _ _ _ _ hr, writeReg_other _ _ _ _ hr]
    · simp only [if_neg h12, if_neg hl, rvExec_cons, rvExec_nil, rvStep]
      refine ⟨?_, fun r hr => writeReg_other _ _ _ _ hr⟩
      rw [writeReg_self _ _ _ hrd]
      unfold toU64 sext32n enc20
      unfold isInt32 at h32
      unfold isInt12 at h12
      split_ifs <;> omega

theorem lor_high_low (a b : Nat) (hb : b < 2 ^ 32) : a * 2 ^ 32 ||| b = a * 2 ^ 32 + b := by
  rw [Nat.mul_comm a (2 ^ 32), ← Nat.mul_add_lt_is_or hb a]

/-- For the encoder the repository actually uses: for every 64-bit
value, executing the sequence `LoadConst64` emits leaves exactly that
value's 64-bit pattern in `rd` (for any destination other than the
zero register and the `TMP2` scratch the sequence itself uses). -/
theorem loadConst64_exec (rd : GpuRegister) (v : Int) (regs : RegFile)
    (hv : -(2 ^ 63) ≤ v ∧ v < 2 ^ 63) (hrd : rd ≠ ZERO) (hrd2 : rd ≠ TMP2)
    (hz : regs ZERO = 0) :
    (rvExec (loadConst64Instrs rd v) regs) rd = toU64 v := by
  unfold loadConst64Instrs
  by_cases h32 : isInt32 v
  · rw [if_pos h32]
    exact (loadConst32_exec rd v regs h32 hrd hz).1
  · rw [if_neg h32]
    simp only [rvExec_append]
    have htz : TMP2 ≠ ZERO := by decide
    have hlo32 : isInt32 (sInt32 v) := by
      unfold sInt32 isInt32
      split_ifs <;> omega
    have hhi32 : isInt32 (v / (2 ^ 32)) := by
      unfold isInt32 at h32 ⊢
      omega
    have e1 := loadConst32_exec TMP2 (sInt32 v) regs hlo32 htz hz
    set regs1 := rvExec (loadConst32Instrs TMP2 (sInt32 v)) regs with hregs1
    have hz1 : regs1 ZERO = 0 := by rw [e1.2 ZERO (by decide), hz]
    have e2 := loadConst32_exec rd (v / (2 ^ 32)) regs1 hhi32 hrd hz1
    set regs2 := rvExec (loadConst32Instrs rd (v / (2 ^ 32))) regs1 with hregs2
    have h2rd : regs2 rd = toU64 (v / (2 ^ 32)) := e2.1
    have h2t : regs2 TMP2 = toU64 (sInt32 v) := by
      rw [e2.2 TMP2 (fun h => hrd2 h.symm), e1.1]
    have hrd2' : ¬ (TMP2 = rd) := fun h => hrd2 h.symm
    simp only [rvExec_cons, rvExec_nil, rvStep, writeReg, if_neg hrd, if_neg htz,
      if_neg hrd2, if_neg hrd2', eq_self_iff_true, if_true]
    rw [h2rd, h2t]
    simp only [show (32 : Nat) % 64 = 32 from rfl]
    have hA : toU64 (v / 2 ^ 32) * 2 ^ 32 % 2 ^ 64
        = toU64 (v / 2 ^ 32) % 2 ^ 32 * 2 ^ 32 := by
      unfold toU64
      omega
    have hB : toU64 (sInt32 v) * 2 ^ 32 % 2 ^ 64 % 2 ^ 64 / 2 ^ 32
        = toU64 (sInt32 v) % 2 ^ 32 := by
      unfold toU64
      omega
    rw [hA, hB, lor_high_low _ _ (by omega)]
    unfold toU64 sInt32
    unfold isInt32 at h32
    split_ifs at * <;> omega

/-- The MIPS64-style instructions `TemplateLoadConst64` selects from
(the older, MIPS-derived assembler header in the excerpt). -/
inductive MipsInstr where
  | ori (rd rs : GpuRegister) (imm16 : Nat)
  | daddiu (rd rs : GpuRegister) (imm16 : Nat)
  | addiw16 (rd rs : GpuRegister) (imm16 : Nat)
  | lui16 (rd : GpuRegister) (imm16 : Nat)
  | dahi (rs : GpuRegister) (imm16 : Nat)
  | dati (rs : GpuRegister) (imm16 : Nat)
  | dsll (rd rs : GpuRegister) (shamt : Nat)
  | dsll32 (rd rs : GpuRegister) (shamt : Nat)
  | dsrl (rd rs : GpuRegister) (shamt : Nat)
  | dsrl32 (rd rs : GpuRegister) (shamt : Nat)
  | dinsu (rd rs : GpuRegister) (pos sz : Nat)
deriving DecidableEq

/-- Modelled from the spec: the MIPS64 semantics of the mnemonics the
strategy selector emits ("add high immediate" / "add top immediate"
style instructions with 16-bit immediates); their implementations are
not part of the excerpt.  `ori` zero-extends its immediate, `daddiu`
adds the sign-extended immediate, `addiw16` additionally truncates to
32 bits and sign-extends, `lui16` loads `imm16 << 16` sign-extended,
`dahi`/`dati` add the sign-extended immediate shifted by 32/48,
`dsll32`-family shifts add 32 to the shift amount, and `dinsu` inserts
the low `sz` bits of the source at position `pos`. -/
def mipsStep (regs : RegFile) : MipsInstr → RegFile
  | .ori rd rs imm16 => writeReg regs rd ((regs rs ||| imm16 % 2 ^ 16) % 2 ^ 64)
  | .daddiu rd rs imm16 => writeReg regs rd (toU64 (regs rs + sext16 imm16))
  | .addiw16 rd rs imm16 =>
      writeReg regs rd (sext32n ((regs rs + toU64 (sext16 imm16)) % 2 ^ 32))
  | .lui16 rd imm16 => writeReg regs rd (sext32n (imm16 % 2 ^ 16 * 2 ^ 16))
  | .dahi rs imm16 => writeReg regs rs (toU64 (regs rs + sext16 imm16 * 2 ^ 32))
  | .dati rs imm16 => writeReg regs rs (toU64 (regs rs + sext16 imm16 * 2 ^ 48))
  | .dsll rd rs shamt => writeReg regs rd (regs rs * 2 ^ (shamt % 32) % 2 ^ 64)
  | .dsll32 rd rs shamt => writeReg regs rd (regs rs * 2 ^ (shamt % 32 + 32) % 2 ^ 64)
  | .dsrl rd rs shamt => writeReg regs rd (regs rs % 2 ^ 64 / 2 ^ (shamt % 32))
  | .dsrl32 rd rs shamt => writeReg regs rd (regs rs % 2 ^ 64 / 2 ^ (shamt % 32 + 32))
  | .dinsu rd rs pos sz =>
      writeReg regs rd
        ((regs rd % 2 ^ 64 / 2 ^ (pos + sz) * 2 ^ (pos + sz)
          + regs rs % 2 ^ sz * 2 ^ pos + regs rd % 2 ^ pos) % 2 ^ 64)

/-- Execution of an emitted MIPS-style sequence. -/
def mipsExec (prog : List MipsInstr) (regs : RegFile) : RegFile :=
  prog.foldl mipsStep regs

theorem mipsExec_nil (regs : RegFile) : mipsExec [] regs = regs := rfl

theorem mipsExec_cons (i : MipsInstr) (is : List MipsInstr) (regs : RegFile) :
    mipsExec (i :: is) regs = mipsExec is (mipsStep regs i) := rfl

theorem mipsExec_append (xs ys : List MipsInstr) (regs : RegFile) :
    mipsExec (xs ++ ys) regs = mipsExec ys (mipsExec xs regs) := by
  simp [mipsExec, List.foldl_append]

/-- `CTZ` (count of trailing zero bits), fuel-based; `ctzRec 64 n` is
the 64-bit count for non-zero `n`. -/
def ctzRec : Nat → Nat → Nat
  | 0, _ => 0
  | fuel + 1, n => if n % 2 = 1 then 0 else ctzRec fuel (n / 2) + 1

/-- `CTZ` on a 64-bit pattern. -/
def ctz64 (n : Nat) : Nat := ctzRec 64 n

/-- `IsPowerOfTwo` from `base/bit_utils.h`:
`x != 0 && (x & (x - 1)) == 0`. -/
def isPow2 (n : Nat) : Bool := n ≠ 0 && n &&& (n - 1) == 0

/-- `LoadConst64Path` bit for the `Ori` strategy. -/
def kLoadConst64PathOri : Nat := 0x1

/-- Strategy bit `Daddiu`. -/
def kLoadConst64PathDaddiu : Nat := 0x2

/-- Strategy bit `Lui`. -/
def kLoadConst64PathLui : Nat := 0x4

/-- Strategy bit `LuiOri`. -/
def kLoadConst64PathLuiOri : Nat := 0x8

/-- Strategy bit `OriDahi`. -/
def kLoadConst64PathOriDahi : Nat := 0x10

/-- Strategy bit `OriDati`. -/
def kLoadConst64PathOriDati : Nat := 0x20

/-- Strategy bit `LuiDahi`. -/
def kLoadConst64PathLuiDahi : Nat := 0x40

/-- Strategy bit `LuiDati`. -/
def kLoadConst64PathLuiDati : Nat := 0x80

/-- Strategy bit `DaddiuDsrlX`. -/
def kLoadConst64PathDaddiuDsrlX : Nat := 0x100

/-- Strategy bit `OriDsllX`. -/
def kLoadConst64PathOriDsllX : Nat := 0x200

/-- Strategy bit `DaddiuDsllX`. -/
def kLoadConst64PathDaddiuDsllX : Nat := 0x400

/-- Strategy bit `LuiOriDsllX`. -/
def kLoadConst64PathLuiOriDsllX : Nat := 0x800

/-- Strategy bit `OriDsllXOri`. -/
def kLoadConst64PathOriDsllXOri : Nat := 0x1000

/-- Strategy bit `DaddiuDsllXOri`. -/
def kLoadConst64PathDaddiuDsllXOri : Nat := 0x2000

/-- Strategy bit `DaddiuDahi`. -/
def kLoadConst64PathDaddiuDahi : Nat := 0x4000

/-- Strategy bit `DaddiuDati`. -/
def kLoadConst64PathDaddiuDati : Nat := 0x8000

/-- Strategy bit `Dinsu1`. -/
def kLoadConst64PathDinsu1 : Nat := 0x10000

/-- Strategy bit `Dinsu2`. -/
def kLoadConst64PathDinsu2 : Nat := 0x20000

/-- Strategy bit `CatchAll`. -/
def kLoadConst64PathCatchAll : Nat := 0x40000

/-- `TemplateLoadConst32` from the MIPS-derived header: unsigned 16-bit
`ori`, signed 16-bit add-immediate, or `lui` of the high 16 bits plus
`ori` of the non-zero low 16 bits. -/
def tmplLoadConst32Instrs (rd : GpuRegister) (value : Int) : List MipsInstr :=
  if isUint16 value then [.ori rd ZERO (enc16 value)]
  else if isInt16 value then [.addiw16 rd ZERO (enc16 value)]
  else
    .lui16 rd (enc16 (value / (2 ^ 16)))
      :: (if value % (2 ^ 16) ≠ 0 then [.ori rd rd (enc16 value)] else [])

/-- `InstrCountForLoadReplicatedConst32` from the MIPS-derived header
(`INT_MAX` as its C value). -/
def instrCountForLoadReplicatedConst32 (value : Int) : Nat :=
  let x := sInt32 value
  let y := sInt32 (value / (2 ^ 32))
  if x = y then
    if isUint16 x ∨ isInt16 x ∨ x % (2 ^ 16) = 0 then 2 else 3
  else 2147483647

/-- The left-shift tail `Dsll`/`Dsll32` (`shift_cnt & 31` written as
`% 32`). -/
def dsllTail (rd : GpuRegister) (cnt : Nat) : List MipsInstr :=
  if cnt < 32 then [.dsll rd rd cnt] else [.dsll32 rd rd (cnt % 32)]

/-- `TemplateLoadConst64` from the MIPS-derived assembler header
(the full ordered strategy list), returning both the emitted
instructions and the recorded `RecordLoadConst64Path` bitmask of the
path taken.  The bitmask is recorded alongside and has no effect on
the instructions. -/
def tmplLoadConst64 (rd : GpuRegister) (value : Int) : List MipsInstr × Nat :=
  let b31 : Int := if 2 ^ 31 ≤ value % (2 ^ 32) then 1 else 0
  let rep32 := instrCountForLoadReplicatedConst32 value
  if isUint16 value then
    ([.ori rd ZERO (enc16 value)], kLoadConst64PathOri)
  else if isInt16 value then
    ([.daddiu rd ZERO (enc16 value)], kLoadConst64PathDaddiu)
  else if value % (2 ^ 16) = 0 ∧ isInt16 (value / (2 ^ 16)) then
    ([.lui16 rd (enc16 (value / (2 ^ 16)))], kLoadConst64PathLui)
  else if isInt32 value then
    ([.lui16 rd (enc16 (value / (2 ^ 16))), .ori rd rd (enc16 value)],
      kLoadConst64PathLuiOri)
  else if value % (2 ^ 32) / (2 ^ 16) = 0 ∧ isInt16 (value / (2 ^ 32)) then
    ([.ori rd ZERO (enc16 value), .dahi rd (enc16 (value / (2 ^ 32)))],
      kLoadConst64PathOriDahi)
  else if value % (2 ^ 48) / (2 ^ 16) = 0 then
    ([.ori rd ZERO (enc16 value), .dati rd (enc16 (value / (2 ^ 48)))],
      kLoadConst64PathOriDati)
  else if value % (2 ^ 16) = 0 ∧ -32768 - b31 ≤ value / (2 ^ 32)
      ∧ value / (2 ^ 32) ≤ 32767 - b31 then
    ([.lui16 rd (enc16 (value / (2 ^ 16))), .dahi rd (enc16 (value / (2 ^ 32) + b31))],
      kLoadConst64PathLuiDahi)
  else if value % (2 ^ 16) = 0
      ∧ (value / (2 ^ 31)) % (2 ^ 17) = (131072 - b31) % (2 ^ 17) then
    ([.lui16 rd (enc16 (value / (2 ^ 16))), .dati rd (enc16 (value / (2 ^ 48) + b31))],
      kLoadConst64PathLuiDati)
  else if isInt16 (sInt32 value) ∧ -32768 - b31 ≤ value / (2 ^ 32)
      ∧ value / (2 ^ 32) ≤ 32767 - b31 then
    ([.daddiu rd ZERO (enc16 value), .dahi rd (enc16 (value / (2 ^ 32) + b31))],
      kLoadConst64PathDaddiuDahi)
  else if isInt16 (sInt32 value)
      ∧ (value / (2 ^ 31)) % (2 ^ 17) = (131072 - b31) % (2 ^ 17) then
    ([.daddiu rd ZERO (enc16 value), .dati rd (enc16 (value / (2 ^ 48) + b31))],
      kLoadConst64PathDaddiuDati)
  else if isPow2 ((toU64 value + 1) % 2 ^ 64) then
    let shiftCnt := 64 - ctz64 ((toU64 value + 1) % 2 ^ 64)
    (.daddiu rd ZERO (enc16 (-1))
        :: (if shiftCnt < 32 then [.dsrl rd rd shiftCnt] else [.dsrl32 rd rd (shiftCnt % 32)]),
      kLoadConst64PathDaddiuDsrlX)
  else
    let shiftCnt := ctz64 (toU64 value)
    let tmp := value / (2 ^ shiftCnt)
    if isUint16 tmp then
      (.ori rd ZERO (enc16 tmp) :: dsllTail rd shiftCnt, kLoadConst64PathOriDsllX)
    else if isInt16 tmp then
      (.daddiu rd ZERO (enc16 tmp) :: dsllTail rd shiftCnt,
        kLoadConst64PathOriDsllX ||| kLoadConst64PathDaddiuDsllX)
    else if rep32 < 3 then
      (tmplLoadConst32Instrs rd (sInt32 value) ++ [.dinsu rd rd 32 32],
        kLoadConst64PathOriDsllX ||| kLoadConst64PathDinsu1)
    else if isInt32 tmp then
      (.lui16 rd (enc16 (tmp / (2 ^ 16))) :: .ori rd rd (enc16 tmp) :: dsllTail rd shiftCnt,
        kLoadConst64PathOriDsllX ||| kLoadConst64PathLuiOriDsllX)
    else
      let shiftCnt2 := 16 + ctz64 (toU64 (value / (2 ^ 16)))
      let tmp2 := value / (2 ^ shiftCnt2)
      if isUint16 tmp2 then
        (.ori rd ZERO (enc16 tmp2) :: dsllTail rd shiftCnt2 ++ [.ori rd rd (enc16 value)],
          kLoadConst64PathOriDsllX ||| kLoadConst64PathOriDsllXOri)
      else if isInt16 tmp2 then
        (.daddiu rd ZERO (enc16 tmp2) :: dsllTail rd shiftCnt2 ++ [.ori rd rd (enc16 value)],
          kLoadConst64PathOriDsllX ||| kLoadConst64PathDaddiuDsllXOri)
      else if rep32 < 4 then
        (tmplLoadConst32Instrs rd (sInt32 value) ++ [.dinsu rd rd 32 32],
          kLoadConst64PathOriDsllX ||| kLoadConst64PathDinsu2)
      else
        let u := toU64 value
        let t := (u + if 2 ^ 31 ≤ u % 2 ^ 32 then 2 ^ 32 else 0) % 2 ^ 64
        let t2 := (t + if t / 2 ^ 47 % 2 = 1 then 2 ^ 48 else 0) % 2 ^ 64
        (tmplLoadConst32Instrs rd (sInt32 value)
            ++ (if t / 2 ^ 32 % 2 ^ 16 ≠ 0 then [.dahi rd (t / 2 ^ 32)] else [])
            ++ (if t2 / 2 ^ 48 ≠ 0 then [.dati rd (t2 / 2 ^ 48)] else []),
          kLoadConst64PathOriDsllX ||| kLoadConst64PathCatchAll)

theorem lor_of_low_zero {X l k : Nat} (hX : X % 2 ^ k = 0) (hl : l < 2 ^ k) :
    X ||| l = X + l := by
  have hX2 : 2 ^ k * (X / 2 ^ k) = X := Nat.mul_div_cancel' (Nat.dvd_of_mod_eq_zero hX)
  calc X ||| l = 2 ^ k * (X / 2 ^ k) ||| l := by rw [hX2]
  _ = 2 ^ k * (X / 2 ^ k) + l := (Nat.mul_add_lt_is_or hl _).symm
  _ = X + l := by rw [hX2]

theorem ctzRec_spec (fuel : Nat) : ∀ n : Nat, n ≠ 0 → n < 2 ^ fuel →
    2 ^ ctzRec fuel n ∣ n ∧ n / 2 ^ ctzRec fuel n % 2 = 1 := by
  induction fuel with
  | zero =>
      intro n hn hlt
      omega
  | succ f ih =>
      intro n hn hlt
      unfold ctzRec
      by_cases ho : n % 2 = 1
      · simp only [if_pos ho]
        exact ⟨Nat.one_dvd n, by simpa using ho⟩
      · simp only [if_neg ho]
        have hm : n / 2 ≠ 0 := by omega
        have hml : n / 2 < 2 ^ f := by
          have : (2 : Nat) ^ (f + 1) = 2 ^ f * 2 := by ring
          omega
        obtain ⟨hdvd, hodd⟩ := ih (n / 2) hm hml
        constructor
        · obtain ⟨c, hc⟩ := hdvd
          refine ⟨c, ?_⟩
          calc n = 2 * (n / 2) := by omega
          _ = 2 * (2 ^ ctzRec f (n / 2) * c) := by rw [← hc]
          _ = 2 ^ (ctzRec f (n / 2) + 1) * c := by rw [pow_succ]; ring
        · have h2 : n / 2 ^ (ctzRec f (n / 2) + 1) = n / 2 / 2 ^ ctzRec f (n / 2) := by
            rw [pow_succ, Nat.mul_comm, ← Nat.div_div_eq_div_mul]
          rw [h2]
          exact hodd

theorem ctz64_spec (n : Nat) (hn : n ≠ 0) (hlt : n < 2 ^ 64) :
    2 ^ ctz64 n ∣ n ∧ n / 2 ^ ctz64 n % 2 = 1 :=
  ctzRec_spec 64 n hn hlt

theorem ctz64_lt (n : Nat) (hn : n ≠ 0) (hlt : n < 2 ^ 64) : ctz64 n < 64 := by
  obtain ⟨hdvd, _⟩ := ctz64_spec n hn hlt
  have h1 : 2 ^ ctz64 n ≤ n := Nat.le_of_dvd (Nat.pos_of_ne_zero hn) hdvd
  by_contra hge
  have h2 : (2 : Nat) ^ 64 ≤ 2 ^ ctz64 n :=
    Nat.pow_le_pow_right (by norm_num) (by omega)
  omega


theorem isPow2_eq_pow (n : Nat) (h : isPow2 n = true) (hlt : n < 2 ^ 64) :
    n = 2 ^ ctz64 n := by
  have hn : n ≠ 0 := by
    unfold isPow2 at h
    simp at h
    exact h.1
  have hland : n &&& (n - 1) = 0 := by
    unfold isPow2 at h
    simp at h
    exact h.2
  obtain ⟨hdvd, hodd⟩ := ctz64_spec n hn hlt
  set c := ctz64 n with hc
  set m := n / 2 ^ c with hm
  have hnm : n = 2 ^ c * m := (Nat.mul_div_cancel' hdvd).symm
  have hmne : m ≠ 0 := by
    intro h0
    rw [h0, Nat.mul_zero] at hnm
    exact hn hnm
  clear_value c m
  by_cases hm1 : m = 1
  · rw [hnm, hm1, Nat.mul_one]
  · exfalso
    have hm3 : 3 ≤ m := by
      have hmo : m % 2 = 1 := hodd
      omega
    set t := Nat.log 2 m with ht
    have htm : 2 ^ t ≤ m := Nat.pow_log_le_self 2 hmne
    have htm2 : m < 2 ^ (t + 1) := Nat.lt_pow_succ_log_self (by norm_num) m
    have ht1 : 1 ≤ t := by
      by_contra h0
      have ht0 : t = 0 := by omega
      rw [ht0] at htm2
      omega
    have hmt : 2 ^ t + 1 ≤ m := by
      rcases Nat.eq_or_lt_of_le htm with he | hl
      · exfalso
        have h2d : (2 : Nat) ∣ m := by
          rw [← he]
          exact dvd_pow_self 2 (by omega)
        have hmo : m % 2 = 1 := hodd
        omega
      · omega
    have hpos : (0 : Nat) < 2 ^ (c + t) := Nat.pos_pow_of_pos _ (by norm_num)
    have hdiv1 : n / 2 ^ (c + t) = 1 := by
      have hstep : n / 2 ^ (c + t) = m / 2 ^ t := by
        rw [hnm, pow_add]
        exact Nat.mul_div_mul_left m (2 ^ t) (Nat.pos_pow_of_pos _ (by norm_num))
      rw [hstep]
      refine Nat.div_eq_of_lt_le (by simpa using htm) ?_
      calc m < 2 ^ (t + 1) := htm2
      _ = 2 * 2 ^ t := by ring
    have hlow : 2 ^ (c + t) ≤ n - 1 := by
      have hge : 2 ^ (c + t) + 2 ^ c ≤ n := by
        calc 2 ^ (c + t) + 2 ^ c = 2 ^ c * (2 ^ t + 1) := by rw [pow_add]; ring
        _ ≤ 2 ^ c * m := mul_le_mul_left' hmt _
        _ = n := hnm.symm
      have hcpos : (0 : Nat) < 2 ^ c := Nat.pos_pow_of_pos _ (by norm_num)
      omega
    have hhigh : n - 1 < 2 * 2 ^ (c + t) := by
      have hlt2 : n < 2 ^ c * 2 ^ (t + 1) := by
        rw [hnm]
        exact mul_lt_mul_of_pos_left htm2 (Nat.pos_pow_of_pos _ (by norm_num))
      have heq : 2 ^ c * 2 ^ (t + 1) = 2 * 2 ^ (c + t) := by
        rw [pow_add, pow_succ]
        ring
      omega
    have hdiv2 : (n - 1) / 2 ^ (c + t) = 1 :=
      Nat.div_eq_of_lt_le (by simpa using hlow) (by simpa using hhigh)
    have hb1 : n.testBit (c + t) = true := by
      rw [Nat.testBit_to_div_mod, hdiv1]
      decide
    have hb2 : (n - 1).testBit (c + t) = true := by
      rw [Nat.testBit_to_div_mod, hdiv2]
      decide
    have hb0 : (n &&& (n - 1)).testBit (c + t) = false := by
      rw [hland]
      exact Nat.zero_testBit _
    rw [Nat.testBit_and, hb1, hb2] at hb0
    simp at hb0

theorem tmplLoadConst32_exec (rd : GpuRegister) (v : Int) (regs : RegFile)
    (h32 : isInt32 v) (hrd : rd ≠ ZERO) (hz : regs ZERO = 0) :
    (mipsExec (tmplLoadConst32Instrs rd v) regs) rd = toU64 v
    ∧ ∀ r, r ≠ rd → (mipsExec (tmplLoadConst32Instrs rd v) regs) r = regs r := by
  unfold tmplLoadConst32Instrs
  by_cases hu : isUint16 v
  · simp only [if_pos hu, mipsExec_cons, mipsExec_nil, mipsStep]
    refine ⟨?_, fun r hr => writeReg_other _ _ _ _ hr⟩
    rw [writeReg_self _ _ _ hrd, hz, Nat.zero_or]
    unfold toU64 enc16
    unfold isUint16 at hu
    omega
  · by_cases hi : isInt16 v
    · simp only [if_neg hu, if_pos hi, mipsExec_cons, mipsExec_nil, mipsStep]
      refine ⟨?_, fun r hr => writeReg_other _ _ _ _ hr⟩
      rw [writeReg_self _ _ _ hrd, hz]
      unfold toU64 sext32n sext16 enc16
      unfold isInt16 at hi
      unfold isUint16 at hu
      split_ifs <;> omega
    · by_cases hl : v % (2 ^ 16) ≠ 0
      · simp only [if_neg hu, if_neg hi, if_pos hl, mipsExec_cons, mipsExec_nil, mipsStep]
        refine ⟨?_, ?_⟩
        · rw [writeReg_self _ _ _ hrd, writeReg_self _ _ _ hrd]
          have hXlow : sext32n (enc16 (v / 2 ^ 16) % 2 ^ 16 * 2 ^ 16) % 2 ^ 16 = 0 := by
            unfold sext32n enc16
            split_ifs <;> omega
          rw [lor_of_low_zero hXlow (by unfold enc16; omega)]
          unfold toU64 sext32n enc16
          unfold isInt32 at h32
          unfold isInt16 at hi
          unfold isUint16 at hu
          split_ifs <;> omega
        · intro r hr
          rw [writeReg_other _ _ _ _ hr, writeReg_other _ _ _ _ hr]
      · simp only [if_neg hu, if_neg hi, if_neg hl, mipsExec_cons, mipsExec_nil, mipsStep]
        refine ⟨?_, fun r hr => writeReg_other _ _ _ _ hr⟩
        rw [writeReg_self _ _ _ hrd]
        unfold toU64 sext32n enc16
        unfold isInt32 at h32
        unfold isInt16 at hi
        unfold isUint16 at hu
        split_ifs <;> omega

theorem toU64_double (y : Int) : toU64 y * 2 % 2 ^ 64 = toU64 (y * 2) := by
  unfold toU64
  omega

theorem toU64_mul_pow (x : Int) (c : Nat) :
    toU64 x * 2 ^ c % 2 ^ 64 = toU64 (x * 2 ^ c) := by
  induction c with
  | zero =>
      simp only [pow_zero, Nat.mul_one, mul_one]
      unfold toU64
      omega
  | succ c ih =>
      have h1 : toU64 x * 2 ^ (c + 1) % 2 ^ 64 = toU64 x * 2 ^ c % 2 ^ 64 * 2 % 2 ^ 64 := by
        rw [pow_succ, ← Nat.mul_assoc, Nat.mul_mod (toU64 x * 2 ^ c) 2 (2 ^ 64),
          Nat.mod_eq_of_lt (show (2 : Nat) < 2 ^ 64 by norm_num)]
      rw [h1, ih, toU64_double]
      rw [show x * 2 ^ c * 2 = x * 2 ^ (c + 1) by rw [pow_succ]; ring]

theorem dvd_int_of_dvd_toU64 (v : Int) (c : Nat) (hc : c ≤ 64) (h : 2 ^ c ∣ toU64 v) :
    ((2 : Int) ^ c) ∣ v := by
  have h1 : ((2 : Int) ^ c) ∣ ((toU64 v : Nat) : Int) := by
    exact_mod_cast Int.natCast_dvd_natCast.mpr h
  have h2 : ((2 : Int) ^ c) ∣ 2 ^ 64 := pow_dvd_pow 2 hc
  have h3 : v = ((toU64 v : Nat) : Int) + 2 ^ 64 * (v / 2 ^ 64) := by
    have hmod : v % 2 ^ 64 = v - 2 ^ 64 * (v / 2 ^ 64) := Int.emod_def v (2 ^ 64)
    have hnn : (0 : Int) ≤ v % 2 ^ 64 := Int.emod_nonneg v (by norm_num)
    unfold toU64
    rw [Int.toNat_of_nonneg hnn]
    omega
  rw [h3]
  exact dvd_add h1 (Dvd.dvd.mul_right h2 _)

theorem mipsBatchA (rd : GpuRegister) (v : Int) (regs : RegFile)
    (hv : -(2 ^ 63) ≤ v ∧ v < 2 ^ 63) (hrd : rd ≠ ZERO) (hz : regs ZERO = 0) :
    (isUint16 v → (mipsExec [.ori rd ZERO (enc16 v)] regs) rd = toU64 v)
    ∧ (isInt16 v → (mipsExec [.daddiu rd ZERO (enc16 v)] regs) rd = toU64 v)
    ∧ (v % (2 ^ 16) = 0 → isInt16 (v / (2 ^ 16)) →
        (mipsExec [.lui16 rd (enc16 (v / (2 ^ 16)))] regs) rd = toU64 v)
    ∧ (isInt32 v →
        (mipsExec [.lui16 rd (enc16 (v / (2 ^ 16))), .ori rd rd (enc16 v)] regs) rd = toU64 v)
    ∧ (v % (2 ^ 32) / (2 ^ 16) = 0 → isInt16 (v / (2 ^ 32)) →
        (mipsExec [.ori rd ZERO (enc16 v), .dahi rd (enc16 (v / (2 ^ 32)))] regs) rd
          = toU64 v)
    ∧ (v % (2 ^ 48) / (2 ^ 16) = 0 →
        (mipsExec [.ori rd ZERO (enc16 v), .dati rd (enc16 (v / (2 ^ 48)))] regs) rd
          = toU64 v) := by
  have hlow : ∀ w : Int, sext32n (enc16 w % 2 ^ 16 * 2 ^ 16) % 2 ^ 16 = 0 := by
    intro w
    unfold sext32n enc16
    split_ifs <;> omega
  refine ⟨?_, ?_, ?_, ?_, ?_, ?_⟩
  · intro hu
    simp only [mipsExec_cons, mipsExec_nil, mipsStep]
    rw [writeReg_self _ _ _ hrd, hz, Nat.zero_or]
    unfold toU64 enc16
    unfold isUint16 at hu
    omega
  · intro hi
    simp only [mipsExec_cons, mipsExec_nil, mipsStep]
    rw [writeReg_self _ _ _ hrd, hz]
    unfold toU64 sext16 enc16
    unfold isInt16 at hi
    split_ifs <;> omega
  · intro hl hi
    simp only [mipsExec_cons, mipsExec_nil, mipsStep]
    rw [writeReg_self _ _ _ hrd]
    unfold toU64 sext32n enc16
    unfold isInt16 at hi
    split_ifs <;> omega
  · intro h32
    simp only [mipsExec_cons, mipsExec_nil, mipsStep]
    rw [writeReg_self _ _ _ hrd, writeReg_self _ _ _ hrd]
    rw [lor_of_low_zero (hlow (v / (2 ^ 16))) (by unfold enc16; omega)]
    unfold toU64 sext32n enc16
    unfold isInt32 at h32
    split_ifs <;> omega
  · intro hmid h16
    simp only [mipsExec_cons, mipsExec_nil, mipsStep]
    rw [writeReg_self _ _ _ hrd, hz, Nat.zero_or, writeReg_self _ _ _ hrd]
    unfold toU64 sext16 enc16
    unfold isInt16 at h16
    split_ifs <;> omega
  · intro hmid
    simp only [mipsExec_cons, mipsExec_nil, mipsStep]
    rw [writeReg_self _ _ _ hrd, hz, Nat.zero_or, writeReg_self _ _ _ hrd]
    unfold toU64 sext16 enc16
    split_ifs <;> omega

set_option maxHeartbeats 2000000 in
theorem mipsBatchB (rd : GpuRegister) (v b31 : Int) (regs : RegFile)
    (hv : -(2 ^ 63) ≤ v ∧ v < 2 ^ 63) (hrd : rd ≠ ZERO) (hz : regs ZERO = 0)
    (hb : b31 = if 2 ^ 31 ≤ v % (2 ^ 32) then 1 else 0) :
    (v % (2 ^ 16) = 0 → -32768 - b31 ≤ v / (2 ^ 32) → v / (2 ^ 32) ≤ 32767 - b31 →
      (mipsExec [.lui16 rd (enc16 (v / (2 ^ 16))), .dahi rd (enc16 (v / (2 ^ 32) + b31))]
        regs) rd = toU64 v)
    ∧ (v % (2 ^ 16) = 0 →
        (v / (2 ^ 31)) % (2 ^ 17) = (131072 - b31) % (2 ^ 17) →
        (mipsExec [.lui16 rd (enc16 (v / (2 ^ 16))), .dati rd (enc16 (v / (2 ^ 48) + b31))]
          regs) rd = toU64 v)
    ∧ (isInt16 (sInt32 v) → -32768 - b31 ≤ v / (2 ^ 32) → v / (2 ^ 32) ≤ 32767 - b31 →
        (mipsExec [.daddiu rd ZERO (enc16 v), .dahi rd (enc16 (v / (2 ^ 32) + b31))]
          regs) rd = toU64 v)
    ∧ (isInt16 (sInt32 v) →
        (v / (2 ^ 31)) % (2 ^ 17) = (131072 - b31) % (2 ^ 17) →
        (mipsExec [.daddiu rd ZERO (enc16 v), .dati rd (enc16 (v / (2 ^ 48) + b31))]
          regs) rd = toU64 v) := by
  refine ⟨?_, ?_, ?_, ?_⟩
  · intro hl h1 h2
    simp only [mipsExec_cons, mipsExec_nil, mipsStep]
    rw [writeReg_self _ _ _ hrd, writeReg_self _ _ _ hrd]
    unfold toU64 sext32n sext16 enc16
    split_ifs at * <;> omega
  · intro hl h1
    simp only [mipsExec_cons, mipsExec_nil, mipsStep]
    rw [writeReg_self _ _ _ hrd, writeReg_self _ _ _ hrd]
    unfold toU64 sext32n sext16 enc16
    split_ifs at * <;> omega
  · intro h16 h1 h2
    simp only [mipsExec_cons, mipsExec_nil, mipsStep]
    rw [writeReg_self _ _ _ hrd, writeReg_self _ _ _ hrd, hz]
    unfold isInt16 sInt32 at h16
    unfold toU64 sext16 enc16
    split_ifs at * <;> omega
  · intro h16 h1
    simp only [mipsExec_cons, mipsExec_nil, mipsStep]
    rw [writeReg_self _ _ _ hrd, writeReg_self _ _ _ hrd, hz]
    unfold isInt16 sInt32 at h16
    unfold toU64 sext16 enc16
    split_ifs at * <;> omega

theorem pow_pred_div (a b : Nat) : (2 ^ (a + b) - 1) / 2 ^ a = 2 ^ b - 1 := by
  have hA : (1 : Nat) ≤ 2 ^ a := Nat.one_le_two_pow
  have hB : (1 : Nat) ≤ 2 ^ b := Nat.one_le_two_pow
  have hAB : (1 : Nat) ≤ 2 ^ (a + b) := Nat.one_le_two_pow
  have hsplit : 2 ^ (a + b) - 1 = (2 ^ a - 1) + 2 ^ a * (2 ^ b - 1) := by
    have hmul : 2 ^ (a + b) = 2 ^ a * 2 ^ b := pow_add 2 a b
    have hAB2 : (1 : Nat) ≤ 2 ^ a * 2 ^ b := by rw [← hmul]; exact hAB
    rw [hmul]
    zify [hA, hB, hAB2]
    ring
  rw [hsplit, Nat.add_mul_div_left _ _ (by positivity),
    Nat.div_eq_of_lt (by omega), Nat.zero_add]

theorem dsllTail_exec (rd : GpuRegister) (cnt : Nat) (regs : RegFile)
    (hc : cnt < 64) (hrd : rd ≠ ZERO) :
    (mipsExec (dsllTail rd cnt) regs) rd = regs rd * 2 ^ cnt % 2 ^ 64 := by
  unfold dsllTail
  by_cases h32 : cnt < 32
  · simp only [if_pos h32, mipsExec_cons, mipsExec_nil, mipsStep]
    rw [writeReg_self _ _ _ hrd, Nat.mod_eq_of_lt h32]
  · simp only [if_neg h32, mipsExec_cons, mipsExec_nil, mipsStep]
    rw [writeReg_self _ _ _ hrd]
    have he : cnt % 32 % 32 + 32 = cnt := by omega
    rw [he]

/-- The `DaddiuDsrlX` strategy: all-ones then a logical right shift. -/
theorem mipsDsrlCase (rd : GpuRegister) (v : Int) (regs : RegFile)
    (hv : -(2 ^ 63) ≤ v ∧ v < 2 ^ 63) (hrd : rd ≠ ZERO) (hz : regs ZERO = 0)
    (hvne : v ≠ 0)
    (hp : isPow2 ((toU64 v + 1) % 2 ^ 64) = true) :
    (mipsExec (.daddiu rd ZERO (enc16 (-1))
        :: (if 64 - ctz64 ((toU64 v + 1) % 2 ^ 64) < 32
            then [.dsrl rd rd (64 - ctz64 ((toU64 v + 1) % 2 ^ 64))]
            else [.dsrl32 rd rd ((64 - ctz64 ((toU64 v + 1) % 2 ^ 64)) % 32)])) regs) rd
      = toU64 v := by
  have hu1 : toU64 v < 2 ^ 64 := by unfold toU64; omega
  have hune : toU64 v ≠ 0 := by unfold toU64; omega
  set p := (toU64 v + 1) % 2 ^ 64 with hpdef
  have hpne : p ≠ 0 := by
    intro h0
    rw [h0] at hp
    simp [isPow2] at hp
  have hpu : p = toU64 v + 1 := by
    rcases Nat.lt_or_ge (toU64 v) (2 ^ 64 - 1) with hlt | hge
    · rw [hpdef, Nat.mod_eq_of_lt (by omega)]
    · exfalso
      have : toU64 v = 2 ^ 64 - 1 := by omega
      rw [hpdef, this] at hpne
      simp at hpne
  have hplt : p < 2 ^ 64 := by rw [hpdef]; exact Nat.mod_lt _ (by norm_num)
  set k := ctz64 p with hkdef
  have hpk : p = 2 ^ k := isPow2_eq_pow p hp hplt
  have hklt : k < 64 := ctz64_lt p hpne hplt
  have hk1 : 1 ≤ k := by
    by_contra h0
    have hk0 : k = 0 := by omega
    rw [hk0, pow_zero] at hpk
    omega
  simp only [mipsExec_cons, mipsExec_nil, mipsStep]
  have hones : toU64 ((regs ZERO : Nat) + sext16 (enc16 (-1))) = 2 ^ 64 - 1 := by
    rw [hz]
    unfold toU64 sext16 enc16
    norm_num
    decide
  by_cases hs : 64 - k < 32
  · simp only [if_pos hs, mipsExec_cons, mipsExec_nil, mipsStep]
    rw [writeReg_self _ _ _ hrd, writeReg_self _ _ _ hrd, hones]
    rw [Nat.mod_eq_of_lt (show (2 : Nat) ^ 64 - 1 < 2 ^ 64 by norm_num),
      Nat.mod_eq_of_lt hs]
    have h64 : (2 : Nat) ^ 64 - 1 = 2 ^ ((64 - k) + k) - 1 := by
      rw [Nat.sub_add_cancel (by omega)]
    rw [h64, pow_pred_div]
    omega
  · simp only [if_neg hs, mipsExec_cons, mipsExec_nil, mipsStep]
    rw [writeReg_self _ _ _ hrd, writeReg_self _ _ _ hrd, hones]
    rw [Nat.mod_eq_of_lt (show (2 : Nat) ^ 64 - 1 < 2 ^ 64 by norm_num)]
    have he : (64 - k) % 32 % 32 + 32 = 64 - k := by omega
    rw [he]
    have h64 : (2 : Nat) ^ 64 - 1 = 2 ^ ((64 - k) + k) - 1 := by
      rw [Nat.sub_add_cancel (by omega)]
    rw [h64, pow_pred_div]
    omega

/-- The shifted strategies `OriDsllX`, `DaddiuDsllX`, `LuiOriDsllX`:
load the narrow value, then shift left. -/
theorem mipsShiftCase (rd : GpuRegister) (v tmp : Int) (cnt : Nat) (regs : RegFile)
    (hrd : rd ≠ ZERO) (hz : regs ZERO = 0)
    (hvP : v = tmp * 2 ^ cnt) (hc : cnt < 64) :
    (isUint16 tmp →
      (mipsExec (.ori rd ZERO (enc16 tmp) :: dsllTail rd cnt) regs) rd = toU64 v)
    ∧ (isInt16 tmp →
      (mipsExec (.daddiu rd ZERO (enc16 tmp) :: dsllTail rd cnt) regs) rd = toU64 v)
    ∧ (isInt32 tmp →
      (mipsExec (.lui16 rd (enc16 (tmp / (2 ^ 16))) :: .ori rd rd (enc16 tmp)
          :: dsllTail rd cnt) regs) rd = toU64 v) := by
  have hfin : ∀ regs2 : RegFile, regs2 rd = toU64 tmp →
      (mipsExec (dsllTail rd cnt) regs2) rd = toU64 v := by
    intro regs2 h2
    rw [dsllTail_exec rd cnt regs2 hc hrd, h2, toU64_mul_pow, ← hvP]
  refine ⟨?_, ?_, ?_⟩
  · intro hu
    rw [mipsExec_cons]
    apply hfin
    simp only [mipsStep]
    rw [writeReg_self _ _ _ hrd, hz, Nat.zero_or]
    unfold toU64 enc16
    unfold isUint16 at hu
    omega
  · intro hi
    rw [mipsExec_cons]
    apply hfin
    simp only [mipsStep]
    rw [writeReg_self _ _ _ hrd, hz]
    unfold toU64 sext16 enc16
    unfold isInt16 at hi
    split_ifs <;> omega
  · intro h32
    rw [show (.lui16 rd (enc16 (tmp / (2 ^ 16))) :: .ori rd rd (enc16 tmp)
        :: dsllTail rd cnt)
      = [MipsInstr.lui16 rd (enc16 (tmp / (2 ^ 16))), .ori rd rd (enc16 tmp)]
        ++ dsllTail rd cnt from rfl]
    rw [mipsExec_append]
    apply hfin
    exact (mipsBatchA rd tmp regs (by unfold isInt32 at h32; constructor <;> omega)
      hrd hz).2.2.2.1 h32

theorem sInt32_int32 (v : Int) : isInt32 (sInt32 v) := by
  unfold sInt32 isInt32
  split_ifs <;> omega

/-- The `Dinsu` strategies: load the replicated 32-bit half, then
insert it again into the upper half. -/
theorem mipsDinsuCase (rd : GpuRegister) (v : Int) (regs : RegFile)
    (hv : -(2 ^ 63) ≤ v ∧ v < 2 ^ 63) (hrd : rd ≠ ZERO) (hz : regs ZERO = 0)
    (hxy : sInt32 v = sInt32 (v / (2 ^ 32))) :
    (mipsExec (tmplLoadConst32Instrs rd (sInt32 v) ++ [.dinsu rd rd 32 32]) regs) rd
      = toU64 v := by
  rw [mipsExec_append]
  have e := tmplLoadConst32_exec rd (sInt32 v) regs (sInt32_int32 v) hrd hz
  simp only [mipsExec_cons, mipsExec_nil, mipsStep]
  rw [writeReg_self _ _ _ hrd, e.1]
  simp only [show (32 : Nat) + 32 = 64 from rfl]
  clear e
  have hxy2 : v % (2 ^ 32) = v / (2 ^ 32) % (2 ^ 32) := by
    unfold sInt32 at hxy
    split_ifs at hxy <;> omega
  have hHi : toU64 (sInt32 v) % 2 ^ 64 / 2 ^ 64 = 0 := by
    unfold toU64
    omega
  have hL : toU64 (sInt32 v) % 2 ^ 32 = toU64 v % 2 ^ 32 := by
    unfold toU64 sInt32
    split_ifs <;> omega
  rw [hHi, hL]
  have hsplit : v % 2 ^ 64 = (v / 2 ^ 32 % 2 ^ 32) * 2 ^ 32 + v % 2 ^ 32 := by
    obtain ⟨q, r, hqr, hr0, hr1⟩ :
        ∃ q r : Int, v = 2 ^ 32 * q + r ∧ 0 ≤ r ∧ r < 2 ^ 32 :=
      ⟨v / 2 ^ 32, v % 2 ^ 32, by rw [Int.ediv_add_emod],
        Int.emod_nonneg v (by norm_num), Int.emod_lt_of_pos v (by norm_num)⟩
    subst hqr
    omega
  have hkey : toU64 v = toU64 v % 2 ^ 32 * 2 ^ 32 + toU64 v % 2 ^ 32 := by
    unfold toU64
    omega
  have hbound : toU64 v < 2 ^ 64 := by
    unfold toU64
    omega
  omega

/-- The shifted strategies with a trailing `ori` of the low 16 bits
(`OriDsllXOri`, `DaddiuDsllXOri`). -/
theorem mipsShiftOriCase (rd : GpuRegister) (v tmp2 : Int) (cnt2 : Nat) (regs : RegFile)
    (hv : -(2 ^ 63) ≤ v ∧ v < 2 ^ 63) (hrd : rd ≠ ZERO) (hz : regs ZERO = 0)
    (hvP2 : tmp2 * 2 ^ cnt2 = v - v % (2 ^ 16)) (hc : cnt2 < 64) :
    (isUint16 tmp2 →
      (mipsExec (.ori rd ZERO (enc16 tmp2) :: dsllTail rd cnt2 ++ [.ori rd rd (enc16 v)])
        regs) rd = toU64 v)
    ∧ (isInt16 tmp2 →
      (mipsExec (.daddiu rd ZERO (enc16 tmp2) :: dsllTail rd cnt2 ++ [.ori rd rd (enc16 v)])
        regs) rd = toU64 v) := by
  have hstep := mipsShiftCase rd (v - v % (2 ^ 16)) tmp2 cnt2 regs hrd hz hvP2.symm hc
  have hfin : ∀ regs2 : RegFile, regs2 rd = toU64 (v - v % (2 ^ 16)) →
      (mipsExec [MipsInstr.ori rd rd (enc16 v)] regs2) rd = toU64 v := by
    intro regs2 h2
    simp only [mipsExec_cons, mipsExec_nil, mipsStep]
    rw [writeReg_self _ _ _ hrd, h2]
    have hXlow : toU64 (v - v % (2 ^ 16)) % 2 ^ 16 = 0 := by
      unfold toU64
      omega
    rw [lor_of_low_zero hXlow (Nat.mod_lt _ (by norm_num))]
    unfold toU64 enc16
    omega
  constructor
  · intro hu
    rw [show (.ori rd ZERO (enc16 tmp2) :: dsllTail rd cnt2 ++ [MipsInstr.ori rd rd (enc16 v)])
        = (.ori rd ZERO (enc16 tmp2) :: dsllTail rd cnt2) ++ [MipsInstr.ori rd rd (enc16 v)]
      from rfl]
    rw [mipsExec_append]
    exact hfin _ (hstep.1 hu)
  · intro hi
    rw [show (.daddiu rd ZERO (enc16 tmp2) :: dsllTail rd cnt2 ++ [MipsInstr.ori rd rd (enc16 v)])
        = (.daddiu rd ZERO (enc16 tmp2) :: dsllTail rd cnt2) ++ [MipsInstr.ori rd rd (enc16 v)]
      from rfl]
    rw [mipsExec_append]
    exact hfin _ (hstep.2.1 hi)

set_option maxHeartbeats 4000000 in
/-- The catch-all strategy: 32-bit load then conditional `dahi`/`dati`
corrections. -/
theorem mipsCatchAllCase (rd : GpuRegister) (v : Int) (t t2 : Nat) (regs : RegFile)
    (hv : -(2 ^ 63) ≤ v ∧ v < 2 ^ 63) (hrd : rd ≠ ZERO) (hz : regs ZERO = 0)
    (ht : t = (toU64 v + if 2 ^ 31 ≤ toU64 v % 2 ^ 32 then 2 ^ 32 else 0) % 2 ^ 64)
    (ht2 : t2 = (t + if t / 2 ^ 47 % 2 = 1 then 2 ^ 48 else 0) % 2 ^ 64) :
    (mipsExec (tmplLoadConst32Instrs rd (sInt32 v)
        ++ (if t / 2 ^ 32 % 2 ^ 16 ≠ 0 then [.dahi rd (t / 2 ^ 32)] else [])
        ++ (if t2 / 2 ^ 48 ≠ 0 then [.dati rd (t2 / 2 ^ 48)] else [])) regs) rd
      = toU64 v := by
  rw [mipsExec_append, mipsExec_append]
  have e := tmplLoadConst32_exec rd (sInt32 v) regs (sInt32_int32 v) hrd hz
  have hr1 : (mipsExec (tmplLoadConst32Instrs rd (sInt32 v)) regs) rd
      = toU64 v % 2 ^ 32 + (if 2 ^ 31 ≤ toU64 v % 2 ^ 32 then 2 ^ 64 - 2 ^ 32 else 0) := by
    rw [e.1]
    unfold toU64 sInt32
    split_ifs <;> omega
  clear e
  have d1 : t / 2 ^ 32 / 2 ^ 16 = t / 2 ^ 48 := by
    rw [Nat.div_div_eq_div_mul]
    norm_num
  have d2 : t / 2 ^ 32 / 2 ^ 15 = t / 2 ^ 47 := by
    rw [Nat.div_div_eq_div_mul]
    norm_num
  have d3 : t2 / 2 ^ 32 / 2 ^ 16 = t2 / 2 ^ 48 := by
    rw [Nat.div_div_eq_div_mul]
    norm_num
  have d4 : toU64 v / 2 ^ 32 / 2 ^ 16 = toU64 v / 2 ^ 48 := by
    rw [Nat.div_div_eq_div_mul]
    norm_num
  by_cases g1 : t / 2 ^ 32 % 2 ^ 16 ≠ 0 <;> by_cases g2 : t2 / 2 ^ 48 ≠ 0
  · simp only [if_pos g1, if_pos g2, mipsExec_cons, mipsExec_nil, mipsStep]
    rw [writeReg_self _ _ _ hrd, writeReg_self _ _ _ hrd, hr1]
    unfold toU64 at ht d4 ⊢
    unfold sext16
    split_ifs at ht ht2 hr1 ⊢ <;> omega
  · simp only [if_pos g1, if_neg g2, mipsExec_cons, mipsExec_nil, mipsStep]
    rw [writeReg_self _ _ _ hrd, hr1]
    unfold toU64 at ht d4 ⊢
    unfold sext16
    split_ifs at ht ht2 hr1 ⊢ <;> omega
  · simp only [if_neg g1, if_pos g2, mipsExec_cons, mipsExec_nil, mipsStep]
    rw [writeReg_self _ _ _ hrd, hr1]
    unfold toU64 at ht d4 ⊢
    unfold sext16
    split_ifs at ht ht2 hr1 ⊢ <;> omega
  · simp only [if_neg g1, if_neg g2, mipsExec_nil]
    rw [hr1]
    unfold toU64 at ht d4 ⊢
    split_ifs at ht ht2 hr1 ⊢ <;> omega

set_option maxHeartbeats 2000000 in
/-- Every strategy `TemplateLoadConst64` selects leaves the requested
64-bit pattern in `rd`. -/
theorem tmplLoadConst64_exec (rd : GpuRegister) (v : Int) (regs : RegFile)
    (hv : -(2 ^ 63) ≤ v ∧ v < 2 ^ 63) (hrd : rd ≠ ZERO) (hz : regs ZERO = 0) :
    (mipsExec (tmplLoadConst64 rd v).1 regs) rd = toU64 v := by
  have hA := mipsBatchA rd v regs hv hrd hz
  simp only [tmplLoadConst64]
  by_cases h1 : isUint16 v
  · simp only [if_pos h1]
    exact hA.1 h1
  simp only [if_neg h1]
  by_cases h2 : isInt16 v
  · simp only [if_pos h2]
    exact hA.2.1 h2
  simp only [if_neg h2]
  by_cases h3 : v % (2 ^ 16) = 0 ∧ isInt16 (v / (2 ^ 16))
  · simp only [if_pos h3]
    exact hA.2.2.1 h3.1 h3.2
  simp only [if_neg h3]
  by_cases h4 : isInt32 v
  · simp only [if_pos h4]
    exact hA.2.2.2.1 h4
  simp only [if_neg h4]
  by_cases h5 : v % (2 ^ 32) / (2 ^ 16) = 0 ∧ isInt16 (v / (2 ^ 32))
  · simp only [if_pos h5]
    exact hA.2.2.2.2.1 h5.1 h5.2
  simp only [if_neg h5]
  by_cases h6 : v % (2 ^ 48) / (2 ^ 16) = 0
  · simp only [if_pos h6]
    exact hA.2.2.2.2.2 h6
  simp only [if_neg h6]
  have hB := mipsBatchB rd v (if 2 ^ 31 ≤ v % (2 ^ 32) then 1 else 0) regs hv hrd hz rfl
  by_cases h7 : v % (2 ^ 16) = 0
      ∧ -32768 - (if 2 ^ 31 ≤ v % (2 ^ 32) then (1 : Int) else 0) ≤ v / (2 ^ 32)
      ∧ v / (2 ^ 32) ≤ 32767 - (if 2 ^ 31 ≤ v % (2 ^ 32) then (1 : Int) else 0)
  · simp only [if_pos h7]
    exact hB.1 h7.1 h7.2.1 h7.2.2
  simp only [if_neg h7]
  by_cases h8 : v % (2 ^ 16) = 0
      ∧ (v / (2 ^ 31)) % (2 ^ 17)
        = (131072 - (if 2 ^ 31 ≤ v % (2 ^ 32) then (1 : Int) else 0)) % (2 ^ 17)
  · simp only [if_pos h8]
    exact hB.2.1 h8.1 h8.2
  simp only [if_neg h8]
  by_cases h9 : isInt16 (sInt32 v)
      ∧ -32768 - (if 2 ^ 31 ≤ v % (2 ^ 32) then (1 : Int) else 0) ≤ v / (2 ^ 32)
      ∧ v / (2 ^ 32) ≤ 32767 - (if 2 ^ 31 ≤ v % (2 ^ 32) then (1 : Int) else 0)
  · simp only [if_pos h9]
    exact hB.2.2.1 h9.1 h9.2.1 h9.2.2
  simp only [if_neg h9]
  by_cases h10 : isInt16 (sInt32 v)
      ∧ (v / (2 ^ 31)) % (2 ^ 17)
        = (131072 - (if 2 ^ 31 ≤ v % (2 ^ 32) then (1 : Int) else 0)) % (2 ^ 17)
  · simp only [if_pos h10]
    exact hB.2.2.2 h10.1 h10.2
  simp only [if_neg h10]
  have hvne : v ≠ 0 := by
    unfold isUint16 at h1
    omega
  by_cases h11 : isPow2 ((toU64 v + 1) % 2 ^ 64) = true
  · simp only [if_pos h11]
    exact mipsDsrlCase rd v regs hv hrd hz hvne h11
  simp only [if_neg h11]
  have hu_ne : toU64 v ≠ 0 := by
    unfold toU64
    omega
  have hu_lt : toU64 v < 2 ^ 64 := by
    unfold toU64
    omega
  have hcnt_lt : ctz64 (toU64 v) < 64 := ctz64_lt _ hu_ne hu_lt
  have hdvd := (ctz64_spec (toU64 v) hu_ne hu_lt).1
  have hIdvd := dvd_int_of_dvd_toU64 v _ (le_of_lt hcnt_lt) hdvd
  have hvP : v = v / 2 ^ ctz64 (toU64 v) * 2 ^ ctz64 (toU64 v) :=
    (Int.ediv_mul_cancel hIdvd).symm
  have hS := mipsShiftCase rd v (v / 2 ^ ctz64 (toU64 v)) (ctz64 (toU64 v)) regs
    hrd hz hvP hcnt_lt
  by_cases h12 : isUint16 (v / 2 ^ ctz64 (toU64 v))
  · simp only [if_pos h12]
    exact hS.1 h12
  simp only [if_neg h12]
  by_cases h13 : isInt16 (v / 2 ^ ctz64 (toU64 v))
  · simp only [if_pos h13]
    exact hS.2.1 h13
  simp only [if_neg h13]
  by_cases h14 : instrCountForLoadReplicatedConst32 v < 3
  · simp only [if_pos h14]
    have hxy : sInt32 v = sInt32 (v / (2 ^ 32)) := by
      by_contra hne
      simp only [instrCountForLoadReplicatedConst32, if_neg hne] at h14
      omega
    exact mipsDinsuCase rd v regs hv hrd hz hxy
  simp only [if_neg h14]
  by_cases h15 : isInt32 (v / 2 ^ ctz64 (toU64 v))
  · simp only [if_pos h15]
    exact hS.2.2 h15
  simp only [if_neg h15]
  have hq_ne : v / (2 ^ 16) ≠ 0 := by
    unfold isUint16 at h1
    omega
  have hu2_ne : toU64 (v / (2 ^ 16)) ≠ 0 := by
    unfold toU64
    omega
  have hu2_lt : toU64 (v / (2 ^ 16)) < 2 ^ 64 := by
    unfold toU64
    omega
  set c2 := ctz64 (toU64 (v / (2 ^ 16))) with hc2def
  have hc2_lt : c2 < 64 := by
    rw [hc2def]
    exact ctz64_lt _ hu2_ne hu2_lt
  have hdvd2 : 2 ^ c2 ∣ toU64 (v / (2 ^ 16)) := by
    rw [hc2def]
    exact (ctz64_spec (toU64 (v / (2 ^ 16))) hu2_ne hu2_lt).1
  have hIdvd2 : ((2 : Int) ^ c2) ∣ v / (2 ^ 16) :=
    dvd_int_of_dvd_toU64 (v / (2 ^ 16)) c2 (le_of_lt hc2_lt) hdvd2
  have hcc : v / (2 ^ 16) / 2 ^ c2 * 2 ^ c2 = v / (2 ^ 16) :=
    Int.ediv_mul_cancel hIdvd2
  have htmp2 : v / 2 ^ (16 + c2) = v / (2 ^ 16) / 2 ^ c2 := by
    have hveq : v = v % (2 ^ 16) + v / (2 ^ 16) * 2 ^ 16 := by omega
    have hNpos : v / (2 ^ 16) * 2 ^ 16 = v / (2 ^ 16) / 2 ^ c2 * 2 ^ (16 + c2) := by
      rw [pow_add]
      calc v / (2 ^ 16) * 2 ^ 16
          = v / (2 ^ 16) / 2 ^ c2 * 2 ^ c2 * 2 ^ 16 := by rw [hcc]
      _ = v / (2 ^ 16) / 2 ^ c2 * (2 ^ 16 * 2 ^ c2) := by ring
    have hple : ((2 : Int) ^ 16) ≤ 2 ^ (16 + c2) :=
      pow_le_pow_right₀ (by norm_num) (by omega)
    conv_lhs => rw [hveq, hNpos]
    rw [Int.add_mul_ediv_right _ _
      (by positivity : ((2 : Int) ^ (16 + c2)) ≠ 0)]
    rw [Int.ediv_eq_zero_of_lt (by omega) (by omega), zero_add]
  have hvP2 : v / 2 ^ (16 + c2) * 2 ^ (16 + c2) = v - v % (2 ^ 16) := by
    rw [htmp2, pow_add]
    calc v / (2 ^ 16) / 2 ^ c2 * (2 ^ 16 * 2 ^ c2)
        = v / (2 ^ 16) / 2 ^ c2 * 2 ^ c2 * 2 ^ 16 := by ring
    _ = v / (2 ^ 16) * 2 ^ 16 := by rw [hcc]
    _ = v - v % (2 ^ 16) := by omega
  have hc2_le : c2 ≤ 47 := by
    by_contra hgt
    have h48 : (2 : Nat) ^ 48 ∣ toU64 (v / (2 ^ 16)) :=
      dvd_trans (pow_dvd_pow 2 (by omega)) hdvd2
    have hm : toU64 (v / (2 ^ 16)) % 2 ^ 48 = 0 := Nat.mod_eq_zero_of_dvd h48
    unfold toU64 at hm hu2_ne
    omega
  have hcnt2_lt : 16 + c2 < 64 := by omega
  have hSO := mipsShiftOriCase rd v (v / 2 ^ (16 + c2)) (16 + c2) regs hv hrd hz
    hvP2 hcnt2_lt
  by_cases h16 : isUint16 (v / 2 ^ (16 + c2))
  · simp only [if_pos h16]
    exact hSO.1 h16
  simp only [if_neg h16]
  by_cases h17 : isInt16 (v / 2 ^ (16 + c2))
  · simp only [if_pos h17]
    exact hSO.2 h17
  simp only [if_neg h17]
  by_cases h18 : instrCountForLoadReplicatedConst32 v < 4
  · simp only [if_pos h18]
    have hxy : sInt32 v = sInt32 (v / (2 ^ 32)) := by
      by_contra hne
      simp only [instrCountForLoadReplicatedConst32, if_neg hne] at h18
      omega
    exact mipsDinsuCase rd v regs hv hrd hz hxy
  simp only [if_neg h18]
  exact mipsCatchAllCase rd v _ _ regs hv hrd hz rfl rfl

set_option maxHeartbeats 2000000 in
/-- The recorded strategy bitmask is never zero. -/
theorem tmplLoadConst64_mask (rd : GpuRegister) (v : Int) :
    (tmplLoadConst64 rd v).2 ≠ 0 := by
  simp only [tmplLoadConst64]
  by_cases h1 : isUint16 v
  · simp only [if_pos h1]
    decide
  simp only [if_neg h1]
  by_cases h2 : isInt16 v
  · simp only [if_pos h2]
    decide
  simp only [if_neg h2]
  by_cases h3 : v % (2 ^ 16) = 0 ∧ isInt16 (v / (2 ^ 16))
  · simp only [if_pos h3]
    decide
  simp only [if_neg h3]
  by_cases h4 : isInt32 v
  · simp only [if_pos h4]
    decide
  simp only [if_neg h4]
  by_cases h5 : v % (2 ^ 32) / (2 ^ 16) = 0 ∧ isInt16 (v / (2 ^ 32))
  · simp only [if_pos h5]
    decide
  simp only [if_neg h5]
  by_cases h6 : v % (2 ^ 48) / (2 ^ 16) = 0
  · simp only [if_pos h6]
    decide
  simp only [if_neg h6]
  by_cases h7 : v % (2 ^ 16) = 0
      ∧ -32768 - (if 2 ^ 31 ≤ v % (2 ^ 32) then (1 : Int) else 0) ≤ v / (2 ^ 32)
      ∧ v / (2 ^ 32) ≤ 32767 - (if 2 ^ 31 ≤ v % (2 ^ 32) then (1 : Int) else 0)
  · simp only [if_pos h7]
    decide
  simp only [if_neg h7]
  by_cases h8 : v % (2 ^ 16) = 0
      ∧ (v / (2 ^ 31)) % (2 ^ 17)
        = (131072 - (if 2 ^ 31 ≤ v % (2 ^ 32) then (1 : Int) else 0)) % (2 ^ 17)
  · simp only [if_pos h8]
    decide
  simp only [if_neg h8]
  by_cases h9 : isInt16 (sInt32 v)
      ∧ -32768 - (if 2 ^ 31 ≤ v % (2 ^ 32) then (1 : Int) else 0) ≤ v / (2 ^ 32)
      ∧ v / (2 ^ 32) ≤ 32767 - (if 2 ^ 31 ≤ v % (2 ^ 32) then (1 : Int) else 0)
  · simp only [if_pos h9]
    decide
  simp only [if_neg h9]
  by_cases h10 : isInt16 (sInt32 v)
      ∧ (v / (2 ^ 31)) % (2 ^ 17)
        = (131072 - (if 2 ^ 31 ≤ v % (2 ^ 32) then (1 : Int) else 0)) % (2 ^ 17)
  · simp only [if_pos h10]
    decide
  simp only [if_neg h10]
  by_cases h11 : isPow2 ((toU64 v + 1) % 2 ^ 64) = true
  · simp only [if_pos h11]
    decide
  simp only [if_neg h11]
  by_cases h12 : isUint16 (v / 2 ^ ctz64 (toU64 v))
  · simp only [if_pos h12]
    decide
  simp only [if_neg h12]
  by_cases h13 : isInt16 (v / 2 ^ ctz64 (toU64 v))
  · simp only [if_pos h13]
    decide
  simp only [if_neg h13]
  by_cases h14 : instrCountForLoadReplicatedConst32 v < 3
  · simp only [if_pos h14]
    decide
  simp only [if_neg h14]
  by_cases h15 : isInt32 (v / 2 ^ ctz64 (toU64 v))
  · simp only [if_pos h15]
    decide
  simp only [if_neg h15]
  by_cases h16 : isUint16 (v / 2 ^ (16 + ctz64 (toU64 (v / (2 ^ 16)))))
  · simp only [if_pos h16]
    decide
  simp only [if_neg h16]
  by_cases h17 : isInt16 (v / 2 ^ (16 + ctz64 (toU64 (v / (2 ^ 16)))))
  · simp only [if_pos h17]
    decide
  simp only [if_neg h17]
  by_cases h18 : instrCountForLoadReplicatedConst32 v < 4
  · simp only [if_pos h18]
    decide
  simp only [if_neg h18]
  decide

/-- C1 (corrected): for every 64-bit value, the sequence the
repository's `Riscv64Assembler::LoadConst64` emits leaves exactly that
value's 64-bit pattern in `rd`; separately, the MIPS-derived
`TemplateLoadConst64` of the excerpt header — which `LoadConst64` does
not call — also leaves that pattern in `rd` for every strategy of its
ordered list, recording a non-zero path bitmask that has no effect on
the emitted instructions. -/
theorem c1_load_const64 (rd : GpuRegister) (v : Int) (regs regsM : RegFile)
    (hv : -(2 ^ 63) ≤ v ∧ v < 2 ^ 63) (hrd : rd ≠ ZERO) (hrd2 : rd ≠ TMP2)
    (hz : regs ZERO = 0) (hzM : regsM ZERO = 0) :
    (rvExec (loadConst64Instrs rd v) regs) rd = toU64 v
    ∧ (mipsExec (tmplLoadConst64 rd v).1 regsM) rd = toU64 v
    ∧ (tmplLoadConst64 rd v).2 ≠ 0 :=
  ⟨loadConst64_exec rd v regs hv hrd hrd2 hz,
   tmplLoadConst64_exec rd v regsM hv hrd hzM,
   tmplLoadConst64_mask rd v⟩

/-- C1, counterexample to the claim as stated: for `v = 2^32` (not a
signed 32-bit value) the repository's `LoadConst64` emits six
instructions (two 32-bit half loads combined with shifts and an `or`),
while the ordered strategy list the claim describes selects the
two-instruction `OriDahi` strategy — `LoadConst64` does not try the
documented strategy list and records no bitmask. -/
theorem c1_load_const64_counterexample :
    (loadConst64Instrs ⟨10, by decide⟩ (2 ^ 32)).length = 6
    ∧ (tmplLoadConst64 ⟨10, by decide⟩ (2 ^ 32)).1.length = 2
    ∧ (tmplLoadConst64 ⟨10, by decide⟩ (2 ^ 32)).2 = kLoadConst64PathOriDahi := by
  decide

theorem c1_load_const64_witness :
    ((-(2 ^ 63) : Int) ≤ 2 ^ 32 + 7 ∧ ((2 ^ 32 + 7 : Int) < 2 ^ 63))
    ∧ ((rvExec (loadConst64Instrs ⟨10, by decide⟩ (2 ^ 32 + 7)) (fun _ => 0)) ⟨10, by decide⟩
        = toU64 (2 ^ 32 + 7)
      ∧ (mipsExec (tmplLoadConst64 ⟨10, by decide⟩ (2 ^ 32 + 7)).1 (fun _ => 0)) ⟨10, by decide⟩
        = toU64 (2 ^ 32 + 7)
      ∧ (tmplLoadConst64 ⟨10, by decide⟩ (2 ^ 32 + 7)).2 ≠ 0) :=
  ⟨⟨by decide, by decide⟩,
   c1_load_const64 ⟨10, by decide⟩ (2 ^ 32 + 7) (fun _ => 0) (fun _ => 0)
     ⟨by decide, by decide⟩ (by decide) (by decide) rfl rfl⟩

/-- `Riscv64Assembler::Branch::Type` (assembler header in the
excerpt). -/
inductive BranchType where
  | kUncondBranch
  | kCondBranch
  | kCall
  | kBareUncondBranch
  | kBareCondBranch
  | kBareCall
  | kLabel
  | kLiteral
  | kLiteralUnsigned
  | kLiteralLong
  | kLongUncondBranch
  | kLongCondBranch
  | kLongCall
deriving DecidableEq

/-- `Riscv64Assembler::Branch::BranchInfo`: length in 4-byte units,
ordinal of the offset-bearing instruction, PC-relative origin
adjustment, offset bit size, offset shift. -/
structure BranchInfo where
  length : Nat
  instrOffset : Nat
  pcOrg : Nat
  offsetSize : Nat
  offsetShift : Nat
deriving DecidableEq

/-- The `branch_info_[]` table from `assembler_riscv64.cc`. -/
def branchInfo : BranchType → BranchInfo
  | .kUncondBranch => ⟨1, 0, 0, 21, 0⟩
  | .kCondBranch => ⟨1, 0, 0, 13, 0⟩
  | .kCall => ⟨1, 0, 0, 21, 0⟩
  | .kBareUncondBranch => ⟨1, 0, 0, 21, 0⟩
  | .kBareCondBranch => ⟨1, 0, 0, 13, 0⟩
  | .kBareCall => ⟨1, 0, 0, 21, 0⟩
  | .kLabel => ⟨2, 0, 0, 32, 0⟩
  | .kLiteral => ⟨2, 0, 0, 32, 0⟩
  | .kLiteralUnsigned => ⟨2, 0, 0, 32, 0⟩
  | .kLiteralLong => ⟨2, 0, 0, 32, 0⟩
  | .kLongUncondBranch => ⟨2, 0, 0, 32, 0⟩
  | .kLongCondBranch => ⟨3, 1, 0, 32, 0⟩
  | .kLongCall => ⟨2, 0, 0, 32, 0⟩

/-- `Branch::IsBare`. -/
def isBare : BranchType → Bool
  | .kBareUncondBranch | .kBareCondBranch | .kBareCall => true
  | _ => false

/-- `Branch::IsLong`. -/
def isLong : BranchType → Bool
  | .kUncondBranch | .kCondBranch | .kCall
  | .kBareUncondBranch | .kBareCondBranch | .kBareCall => false
  | .kLongUncondBranch | .kLongCondBranch | .kLongCall
  | .kLabel | .kLiteral | .kLiteralUnsigned | .kLiteralLong => true

/-- `Branch::kUnresolved`. -/
def kUnresolved : Nat := 0xffffffff

/-- `Branch::kMaxBranchSize` (`kMaxBranchLength * sizeof(uint32_t)`). -/
def kMaxBranchSize : Int := 32 * 4

/-- A branch record: the fields of `Riscv64Assembler::Branch` that
participate in promotion and offset encoding (condition and register
operands do not). -/
structure Brch where
  oldLocation : Nat
  location : Nat
  target : Nat
  type : BranchType
  oldType : BranchType
deriving DecidableEq

/-- `Branch::GetOffsetSizeNeeded`: bump the distance by the maximal
composite-branch size, then pick the smallest of the 13/21/32-bit
classes that holds it. -/
def offsetSizeNeeded (location target : Nat) : Nat :=
  if target = kUnresolved then 13
  else
    let distance : Int := (target : Int) - location
    let distance := distance + (if 0 ≤ distance then kMaxBranchSize else -kMaxBranchSize)
    if -(2 ^ 12) ≤ distance ∧ distance < 2 ^ 12 then 13
    else if -(2 ^ 20) ≤ distance ∧ distance < 2 ^ 20 then 21
    else 32

/-- `Branch::PromoteToLong` with its `CHECK(!IsBare())` and
`CHECK(IsLong())` as `Option` failure. -/
def promoteToLongChecked (t : BranchType) : Option BranchType :=
  if isBare t then none
  else
    let t2 := match t with
      | .kUncondBranch => BranchType.kLongUncondBranch
      | .kCondBranch => BranchType.kLongCondBranch
      | .kCall => BranchType.kLongCall
      | u => u
    if isLong t2 then some t2 else none

/-- `Branch::PromoteIfNeeded(max_short_distance)`: the returned number
is the growth in bytes (`0` when nothing changed); `none` models a
fatal `CHECK`.  The second promotion block is the debugging path,
dead under the default threshold `2^32 - 1`. -/
def promoteIfNeeded (b : Brch) (maxShortDistance : Nat) : Option (Brch × Nat) :=
  if isLong b.type = true ∨ b.target = kUnresolved then some (b, 0)
  else if (branchInfo b.type).offsetSize < offsetSizeNeeded b.location b.target then
    match promoteToLongChecked b.type with
    | none => none
    | some t2 =>
        let newSize := (branchInfo t2).length * 4
        let oldSize := (branchInfo b.oldType).length * 4
        if oldSize < newSize then some ({ b with type := t2 }, newSize - oldSize)
        else none
  else if maxShortDistance ≠ 2 ^ 32 - 1 ∧ isBare b.type = false
      ∧ (maxShortDistance : Int)
        ≤ (if 0 ≤ (b.target : Int) - b.location then (b.target : Int) - b.location
           else -((b.target : Int) - b.location)) then
    match promoteToLongChecked b.type with
    | none => none
    | some t2 =>
        let newSize := (branchInfo t2).length * 4
        let oldSize := (branchInfo b.oldType).length * 4
        if oldSize < newSize then some ({ b with type := t2 }, newSize - oldSize)
        else none
  else some (b, 0)

/-- `Branch::Relocate(expand_location, delta)`. -/
def relocateBr (expandLocation delta : Nat) (b : Brch) : Brch :=
  let b := if expandLocation < b.location then { b with location := b.location + delta } else b
  if b.target = kUnresolved then b
  else if expandLocation < b.target then { b with target := b.target + delta } else b

/-- One pass of the promotion loop in `PromoteBranches` (fuel-indexed
zipper over the branch list): each branch is `CHECK`ed resolved, then
promoted if needed; on growth every branch is relocated past the
expansion point and the pass is marked changed. -/
def promotePassGo : Nat → List Brch → List Brch → Bool → Option (List Brch × Bool)
  | _, done, [], changed => some (done, changed)
  | 0, _, _ :: _, _ => none
  | fuel + 1, done, b :: rest, changed =>
      if b.target = kUnresolved then none
      else
        match promoteIfNeeded b (2 ^ 32 - 1) with
        | none => none
        | some (b2, delta) =>
            if delta ≠ 0 then
              promotePassGo fuel ((done ++ [b2]).map (relocateBr b2.location delta))
                (rest.map (relocateBr b2.location delta)) true
            else
              promotePassGo fuel (done ++ [b2]) rest changed

/-- One full pass over all branches. -/
def promotePass (bs : List Brch) : Option (List Brch × Bool) :=
  promotePassGo bs.length [] bs false

/-- The `do {} while (changed)` promotion loop of `PromoteBranches`,
with fuel. -/
def promoteBranchesLoop : Nat → List Brch → Option (List Brch)
  | 0, _ => none
  | fuel + 1, bs =>
      match promotePass bs with
      | none => none
      | some (bs2, changed) => if changed then promoteBranchesLoop fuel bs2 else some bs2

/-- `static_cast<uint32_t>` of a C integer expression. -/
def toU32 (v : Int) : Nat := (v % (2 ^ 32)).toNat

/-- `Branch::GetOffsetLocation`. -/
def getOffsetLocation (b : Brch) : Nat :=
  b.location + (branchInfo b.type).instrOffset * 4

/-- `Branch::GetOffset`: mask the 32-bit distance from the offset
location (adjusted by the PC origin) to the target down to the offset
field and shift it for encoding. -/
def getOffset (b : Brch) : Nat :=
  let ofsMask : Nat := 0xFFFFFFFF >>> (32 - (branchInfo b.type).offsetSize)
  let offset := toU32 ((b.target : Int) - getOffsetLocation b
    - (branchInfo b.type).pcOrg * 4)
  (offset &&& ofsMask) >>> (branchInfo b.type).offsetShift

/-- Reading a `w`-bit offset field back as a signed byte distance. -/
def sextW (w f : Nat) : Int :=
  if f % 2 ^ w < 2 ^ (w - 1) then (f % 2 ^ w : Nat) else (f % 2 ^ w : Nat) - 2 ^ w

theorem promoteIfNeeded_zero {b b2 : Brch} {m : Nat}
    (h : promoteIfNeeded b m = some (b2, 0)) : b2 = b := by
  unfold promoteIfNeeded at h
  by_cases h1 : isLong b.type = true ∨ b.target = kUnresolved
  · rw [if_pos h1] at h
    simp only [Option.some.injEq, Prod.mk.injEq] at h
    exact h.1.symm
  rw [if_neg h1] at h
  by_cases h2 : (branchInfo b.type).offsetSize < offsetSizeNeeded b.location b.target
  · rw [if_pos h2] at h
    cases hp : promoteToLongChecked b.type with
    | none => simp [hp] at h
    | some t2 =>
        simp only [hp] at h
        by_cases hsz : (branchInfo b.oldType).length * 4 < (branchInfo t2).length * 4
        · rw [if_pos hsz] at h
          simp only [Option.some.injEq, Prod.mk.injEq] at h
          omega
        · rw [if_neg hsz] at h
          exact Option.noConfusion h
  rw [if_neg h2] at h
  by_cases h3 : m ≠ 2 ^ 32 - 1 ∧ isBare b.type = false
      ∧ (m : Int) ≤ (if 0 ≤ (b.target : Int) - b.location
          then (b.target : Int) - b.location else -((b.target : Int) - b.location))
  · rw [if_pos h3] at h
    cases hp : promoteToLongChecked b.type with
    | none => simp [hp] at h
    | some t2 =>
        simp only [hp] at h
        by_cases hsz : (branchInfo b.oldType).length * 4 < (branchInfo t2).length * 4
        · rw [if_pos hsz] at h
          simp only [Option.some.injEq, Prod.mk.injEq] at h
          omega
        · rw [if_neg hsz] at h
          exact Option.noConfusion h
  · rw [if_neg h3] at h
    simp only [Option.some.injEq, Prod.mk.injEq] at h
    exact h.1.symm

theorem promotePassGo_true (fuel : Nat) : ∀ (done rest : List Brch) (out : List Brch)
    (c : Bool), promotePassGo fuel done rest true = some (out, c) → c = true := by
  induction fuel with
  | zero =>
      intro done rest out c h
      cases rest with
      | nil =>
          simp only [promotePassGo, Option.some.injEq, Prod.mk.injEq] at h
          exact h.2.symm
      | cons b r =>
          simp only [promotePassGo] at h
          exact Option.noConfusion h
  | succ f ih =>
      intro done rest out c h
      cases rest with
      | nil =>
          simp only [promotePassGo, Option.some.injEq, Prod.mk.injEq] at h
          exact h.2.symm
      | cons b r =>
          simp only [promotePassGo] at h
          by_cases hres : b.target = kUnresolved
          · rw [if_pos hres] at h
            exact Option.noConfusion h
          rw [if_neg hres] at h
          cases hp : promoteIfNeeded b (2 ^ 32 - 1) with
          | none =>
              rw [hp] at h
              exact Option.noConfusion h
          | some p =>
              rw [hp] at h
              obtain ⟨b2, delta⟩ := p
              simp only at h
              by_cases hd : delta ≠ 0
              · rw [if_pos hd] at h
                exact ih _ _ _ _ h
              · rw [if_neg hd] at h
                exact ih _ _ _ _ h

theorem promotePassGo_spec (fuel : Nat) : ∀ (done rest : List Brch) (changed : Bool)
    (out : List Brch), promotePassGo fuel done rest changed = some (out, false) →
    out = done ++ rest
    ∧ ∀ b ∈ rest, b.target ≠ kUnresolved ∧ promoteIfNeeded b (2 ^ 32 - 1) = some (b, 0) := by
  induction fuel with
  | zero =>
      intro done rest changed out h
      cases rest with
      | nil =>
          simp only [promotePassGo, Option.some.injEq, Prod.mk.injEq] at h
          exact ⟨h.1.symm.trans (List.append_nil done).symm, by simp⟩
      | cons b r =>
          simp only [promotePassGo] at h
          exact Option.noConfusion h
  | succ f ih =>
      intro done rest changed out h
      cases rest with
      | nil =>
          simp only [promotePassGo, Option.some.injEq, Prod.mk.injEq] at h
          exact ⟨h.1.symm.trans (List.append_nil done).symm, by simp⟩
      | cons b r =>
          simp only [promotePassGo] at h
          by_cases hres : b.target = kUnresolved
          · rw [if_pos hres] at h
            exact Option.noConfusion h
          rw [if_neg hres] at h
          cases hp : promoteIfNeeded b (2 ^ 32 - 1) with
          | none =>
              rw [hp] at h
              exact Option.noConfusion h
          | some p =>
              rw [hp] at h
              obtain ⟨b2, delta⟩ := p
              simp only at h
              by_cases hd : delta ≠ 0
              · rw [if_pos hd] at h
                exact absurd (promotePassGo_true f _ _ _ _ h) (by simp)
              · rw [if_neg hd] at h
                have hd0 : delta = 0 := by omega
                subst hd0
                have hb2 : b2 = b := promoteIfNeeded_zero hp
                rw [hb2] at hp h
                obtain ⟨hout, hall⟩ := ih (done ++ [b]) r changed out h
                refine ⟨by simpa using hout, ?_⟩
                intro x hx
                rcases List.mem_cons.mp hx with rfl | hx2
                · exact ⟨hres, hp⟩
                · exact hall x hx2

theorem promoteBranchesLoop_spec (fuel : Nat) : ∀ (bs out : List Brch),
    promoteBranchesLoop fuel bs = some out →
    ∀ b ∈ out, b.target ≠ kUnresolved ∧ promoteIfNeeded b (2 ^ 32 - 1) = some (b, 0) := by
  induction fuel with
  | zero =>
      intro bs out h
      simp only [promoteBranchesLoop] at h
      exact Option.noConfusion h
  | succ f ih =>
      intro bs out h
      simp only [promoteBranchesLoop] at h
      cases hp : promotePass bs with
      | none =>
          rw [hp] at h
          exact Option.noConfusion h
      | some p =>
          rw [hp] at h
          obtain ⟨bs2, changed⟩ := p
          simp only at h
          cases changed with
          | true =>
              simp only [if_pos rfl] at h
              exact ih bs2 out h
          | false =>
              simp only [if_neg (by simp : ¬(false = true))] at h
              simp only [Option.some.injEq] at h
              subst h
              have hsp := promotePassGo_spec bs.length [] bs false bs2 hp
              intro b hb
              exact hsp.2 b (by rw [hsp.1] at hb; simpa using hb)

theorem short_fixed_fits (b : Brch) (hres : b.target ≠ kUnresolved)
    (hl : isLong b.type = false)
    (hfix : promoteIfNeeded b (2 ^ 32 - 1) = some (b, 0)) :
    offsetSizeNeeded b.location b.target ≤ (branchInfo b.type).offsetSize := by
  by_contra hB0
  have hB : (branchInfo b.type).offsetSize < offsetSizeNeeded b.location b.target := by
    omega
  unfold promoteIfNeeded at hfix
  rw [if_neg (by simp [hl, hres])] at hfix
  rw [if_pos hB] at hfix
  cases hp : promoteToLongChecked b.type with
  | none => simp [hp] at hfix
  | some t2 =>
      simp only [hp] at hfix
      by_cases hsz : (branchInfo b.oldType).length * 4 < (branchInfo t2).length * 4
      · rw [if_pos hsz] at hfix
        simp only [Option.some.injEq, Prod.mk.injEq] at hfix
        omega
      · rw [if_neg hsz] at hfix
        exact Option.noConfusion hfix

theorem fits13 (loc tgt : Nat) (hres : tgt ≠ kUnresolved)
    (h : offsetSizeNeeded loc tgt ≤ 13) :
    -(2 ^ 12) ≤ (tgt : Int) - loc ∧ (tgt : Int) - loc < 2 ^ 12 := by
  simp only [offsetSizeNeeded, kMaxBranchSize, if_neg hres] at h
  by_cases hsign : (0 : Int) ≤ (tgt : Int) - loc
  · rw [if_pos hsign] at h
    split_ifs at h <;> omega
  · rw [if_neg hsign] at h
    split_ifs at h <;> omega

theorem fits21 (loc tgt : Nat) (hres : tgt ≠ kUnresolved)
    (h : offsetSizeNeeded loc tgt ≤ 21) :
    -(2 ^ 20) ≤ (tgt : Int) - loc ∧ (tgt : Int) - loc < 2 ^ 20 := by
  simp only [offsetSizeNeeded, kMaxBranchSize, if_neg hres] at h
  by_cases hsign : (0 : Int) ≤ (tgt : Int) - loc
  · rw [if_pos hsign] at h
    split_ifs at h <;> omega
  · rw [if_neg hsign] at h
    split_ifs at h <;> omega

theorem sext_decode13 (d : Int) (h1 : -(2 ^ 12) ≤ d) (h2 : d < 2 ^ 12) :
    sextW 13 (toU32 d &&& (0xFFFFFFFF >>> (32 - 13))) = d := by
  have hmask : (0xFFFFFFFF : Nat) >>> (32 - 13) = 2 ^ 13 - 1 := by decide
  rw [hmask, Nat.and_pow_two_sub_one_eq_mod]
  unfold toU32 sextW
  split_ifs <;> omega

theorem sext_decode21 (d : Int) (h1 : -(2 ^ 20) ≤ d) (h2 : d < 2 ^ 20) :
    sextW 21 (toU32 d &&& (0xFFFFFFFF >>> (32 - 21))) = d := by
  have hmask : (0xFFFFFFFF : Nat) >>> (32 - 21) = 2 ^ 21 - 1 := by decide
  rw [hmask, Nat.and_pow_two_sub_one_eq_mod]
  unfold toU32 sextW
  split_ifs <;> omega

theorem sext_decode32 (d : Int) (h1 : -(2 ^ 31) ≤ d) (h2 : d < 2 ^ 31) :
    sextW 32 (toU32 d &&& (0xFFFFFFFF >>> (32 - 32))) = d := by
  have hmask : (0xFFFFFFFF : Nat) >>> (32 - 32) = 2 ^ 32 - 1 := by decide
  rw [hmask, Nat.and_pow_two_sub_one_eq_mod]
  unfold toU32 sextW
  split_ifs <;> omega

set_option maxHeartbeats 1000000 in
/-- C2: once the promotion loop of `PromoteBranches` reaches its fixed
point, every branch's encoded offset field (as `GetOffset` computes it
for `EmitBranch`) decodes to exactly the byte distance from the
branch's PC-relative origin to its resolved target; and under the
default promotion threshold, a branch whose distance already fits its
current 13-, 21- or 32-bit offset class is never promoted. -/
theorem c2_branch_promotion (fuel : Nat) (bs bs2 : List Brch) (b : Brch)
    (hloop : promoteBranchesLoop fuel bs = some bs2) (hmem : b ∈ bs2)
    (hloc : b.location < 2 ^ 30) (htgt : b.target < 2 ^ 30) :
    sextW (branchInfo b.type).offsetSize (getOffset b)
      = (b.target : Int) - getOffsetLocation b
    ∧ ∀ c : Brch, offsetSizeNeeded c.location c.target ≤ (branchInfo c.type).offsetSize →
        promoteIfNeeded c (2 ^ 32 - 1) = some (c, 0) := by
  obtain ⟨hres, hfix⟩ := promoteBranchesLoop_spec fuel bs bs2 hloop b hmem
  constructor
  · obtain ⟨oldLoc, loc, tgt, ty, oldTy⟩ := b
    dsimp only at hres hloc htgt hfix ⊢
    cases ty
    case kUncondBranch =>
      have hfits := short_fixed_fits ⟨oldLoc, loc, tgt, .kUncondBranch, oldTy⟩ hres (by rfl) hfix
      obtain ⟨hf1, hf2⟩ := fits21 loc tgt hres hfits
      dsimp only [branchInfo, getOffset, getOffsetLocation]
      simp only [Nat.zero_mul, Nat.add_zero, Nat.cast_zero, zero_mul, sub_zero,
        Nat.shiftRight_zero]
      exact sext_decode21 _ hf1 hf2
    case kCondBranch =>
      have hfits := short_fixed_fits ⟨oldLoc, loc, tgt, .kCondBranch, oldTy⟩ hres (by rfl) hfix
      obtain ⟨hf1, hf2⟩ := fits13 loc tgt hres hfits
      dsimp only [branchInfo, getOffset, getOffsetLocation]
      simp only [Nat.zero_mul, Nat.add_zero, Nat.cast_zero, zero_mul, sub_zero,
        Nat.shiftRight_zero]
      exact sext_decode13 _ hf1 hf2
    case kCall =>
      have hfits := short_fixed_fits ⟨oldLoc, loc, tgt, .kCall, oldTy⟩ hres (by rfl) hfix
      obtain ⟨hf1, hf2⟩ := fits21 loc tgt hres hfits
      dsimp only [branchInfo, getOffset, getOffsetLocation]
      simp only [Nat.zero_mul, Nat.add_zero, Nat.cast_zero, zero_mul, sub_zero,
        Nat.shiftRight_zero]
      exact sext_decode21 _ hf1 hf2
    case kBareUncondBranch =>
      have hfits := short_fixed_fits ⟨oldLoc, loc, tgt, .kBareUncondBranch, oldTy⟩ hres (by rfl) hfix
      obtain ⟨hf1, hf2⟩ := fits21 loc tgt hres hfits
      dsimp only [branchInfo, getOffset, getOffsetLocation]
      simp only [Nat.zero_mul, Nat.add_zero, Nat.cast_zero, zero_mul, sub_zero,
        Nat.shiftRight_zero]
      exact sext_decode21 _ hf1 hf2
    case kBareCondBranch =>
      have hfits := short_fixed_fits ⟨oldLoc, loc, tgt, .kBareCondBranch, oldTy⟩ hres (by rfl) hfix
      obtain ⟨hf1, hf2⟩ := fits13 loc tgt hres hfits
      dsimp only [branchInfo, getOffset, getOffsetLocation]
      simp only [Nat.zero_mul, Nat.add_zero, Nat.cast_zero, zero_mul, sub_zero,
        Nat.shiftRight_zero]
      exact sext_decode13 _ hf1 hf2
    case kBareCall =>
      have hfits := short_fixed_fits ⟨oldLoc, loc, tgt, .kBareCall, oldTy⟩ hres (by rfl) hfix
      obtain ⟨hf1, hf2⟩ := fits21 loc tgt hres hfits
      dsimp only [branchInfo, getOffset, getOffsetLocation]
      simp only [Nat.zero_mul, Nat.add_zero, Nat.cast_zero, zero_mul, sub_zero,
        Nat.shiftRight_zero]
      exact sext_decode21 _ hf1 hf2
    case kLabel =>
      dsimp only [branchInfo, getOffset, getOffsetLocation]
      simp only [Nat.zero_mul, Nat.add_zero, Nat.cast_zero, zero_mul, sub_zero,
        Nat.shiftRight_zero]
      exact sext_decode32 _ (by omega) (by omega)
    case kLiteral =>
      dsimp only [branchInfo, getOffset, getOffsetLocation]
      simp only [Nat.zero_mul, Nat.add_zero, Nat.cast_zero, zero_mul, sub_zero,
        Nat.shiftRight_zero]
      exact sext_decode32 _ (by omega) (by omega)
    case kLiteralUnsigned =>
      dsimp only [branchInfo, getOffset, getOffsetLocation]
      simp only [Nat.zero_mul, Nat.add_zero, Nat.cast_zero, zero_mul, sub_zero,
        Nat.shiftRight_zero]
      exact sext_decode32 _ (by omega) (by omega)
    case kLiteralLong =>
      dsimp only [branchInfo, getOffset, getOffsetLocation]
      simp only [Nat.zero_mul, Nat.add_zero, Nat.cast_zero, zero_mul, sub_zero,
        Nat.shiftRight_zero]
      exact sext_decode32 _ (by omega) (by omega)
    case kLongUncondBranch =>
      dsimp only [branchInfo, getOffset, getOffsetLocation]
      simp only [Nat.zero_mul, Nat.add_zero, Nat.cast_zero, zero_mul, sub_zero,
        Nat.shiftRight_zero]
      exact sext_decode32 _ (by omega) (by omega)
    case kLongCondBranch =>
      dsimp only [branchInfo, getOffset, getOffsetLocation]
      simp only [Nat.zero_mul, Nat.add_zero, Nat.cast_zero, zero_mul, sub_zero,
        Nat.shiftRight_zero]
      exact sext_decode32 _ (by omega) (by omega)
    case kLongCall =>
      dsimp only [branchInfo, getOffset, getOffsetLocation]
      simp only [Nat.zero_mul, Nat.add_zero, Nat.cast_zero, zero_mul, sub_zero,
        Nat.shiftRight_zero]
      exact sext_decode32 _ (by omega) (by omega)
  · intro c hfits2
    unfold promoteIfNeeded
    rcases Nat.lt_or_ge c.target kUnresolved with hcr | hcr
    all_goals by_cases hA : isLong c.type = true ∨ c.target = kUnresolved
    · rw [if_pos hA]
    · rw [if_neg hA]
      rw [if_neg (by omega :
        ¬((branchInfo c.type).offsetSize < offsetSizeNeeded c.location c.target))]
      rw [if_neg (fun hcon => hcon.1 rfl)]
    · rw [if_pos hA]
    · rw [if_neg hA]
      rw [if_neg (by omega :
        ¬((branchInfo c.type).offsetSize < offsetSizeNeeded c.location c.target))]
      rw [if_neg (fun hcon => hcon.1 rfl)]


theorem c2_branch_promotion_witness :
    promoteBranchesLoop 3 [⟨0, 0, 8192, .kCondBranch, .kCondBranch⟩]
      = some [⟨0, 0, 8200, .kLongCondBranch, .kCondBranch⟩]
    ∧ (⟨0, 0, 8200, .kLongCondBranch, .kCondBranch⟩ : Brch)
        ∈ [(⟨0, 0, 8200, .kLongCondBranch, .kCondBranch⟩ : Brch)]
    ∧ (0 : Nat) < 2 ^ 30 ∧ (8200 : Nat) < 2 ^ 30
    ∧ sextW (branchInfo (Brch.mk 0 0 8200 .kLongCondBranch .kCondBranch).type).offsetSize
        (getOffset ⟨0, 0, 8200, .kLongCondBranch, .kCondBranch⟩)
      = ((8200 : Nat) : Int)
        - getOffsetLocation ⟨0, 0, 8200, .kLongCondBranch, .kCondBranch⟩ :=
  ⟨by decide, by decide, by decide, by decide,
   (c2_branch_promotion 3 [⟨0, 0, 8192, .kCondBranch, .kCondBranch⟩]
     [⟨0, 0, 8200, .kLongCondBranch, .kCondBranch⟩]
     ⟨0, 0, 8200, .kLongCondBranch, .kCondBranch⟩
     (by decide) (by decide) (by decide) (by decide)).1⟩

/-- `Riscv64Assembler::EmitLiterals`: bind and emit all 4-byte
literals, then — when 64-bit literals exist — one reserved alignment
word (`Emit(0)`) followed by the 8-byte literals.  Returns the bound
label positions of the 4-byte literals, those of the 8-byte literals,
and the final buffer size, starting from the given code size. -/
def emitLiterals (codeSize lit4Count lit8Count : Nat) : List Nat × List Nat × Nat :=
  let pos4 := (List.range lit4Count).map (fun i => codeSize + 4 * i)
  let size4 := codeSize + 4 * lit4Count
  if lit8Count = 0 then (pos4, [], size4)
  else
    let firstLong := size4 + 4
    (pos4, (List.range lit8Count).map (fun i => firstLong + 8 * i),
      firstLong + 8 * lit8Count)

/-- The 64-bit literal alignment step at the end of
`PromoteBranches`: with a non-empty long-literal pool starting at
`firstLit` (checked to sit at the very end of the buffer), a
misaligned pool is moved down by one 4-byte slot, the buffer shrinks
by the 4 reserved bytes, and every branch whose resolved target is at
or beyond the pool start has its target reduced by 4.  `none` models
the fatal `CHECK_EQ`. -/
def alignLongLiterals (branches : List Brch) (firstLit litCount bufSize : Nat) :
    Option (List Brch × Nat × Nat) :=
  if litCount = 0 then some (branches, firstLit, bufSize)
  else if firstLit + litCount * 8 ≠ bufSize then none
  else if firstLit % 8 ≠ 0 then
    some (branches.map
        (fun b => if firstLit ≤ b.target then { b with target := b.target - 4 } else b),
      firstLit - 4, bufSize - 4)
  else some (branches, firstLit, bufSize)

/-- C6: eight-byte literals form a separate pool after all four-byte
literals, preceded by one reserved 4-byte word; the pool sits at the
very end of the buffer; and when the settled pool start is not 8-byte
aligned, the pool is moved down one 4-byte slot (making it aligned),
the reserved word is consumed (buffer shrinks by 4), and every branch
whose resolved target lies at or beyond the pool start has its target
reduced by 4. -/
theorem c6_literal_pool_alignment (codeSize lit4Count lit8Count : Nat)
    (branches : List Brch) (firstLit bufSize : Nat)
    (h8 : lit8Count ≠ 0)
    (hfl : firstLit = codeSize + 4 * lit4Count + 4)
    (hbuf : bufSize = firstLit + 8 * lit8Count)
    (hal4 : codeSize % 4 = 0)
    (hmis : firstLit % 8 ≠ 0) :
    (emitLiterals codeSize lit4Count lit8Count).2.1
      = (List.range lit8Count).map (fun i => firstLit + 8 * i)
    ∧ (∀ p ∈ (emitLiterals codeSize lit4Count lit8Count).1, p + 4 ≤ firstLit)
    ∧ (emitLiterals codeSize lit4Count lit8Count).2.2 = bufSize
    ∧ alignLongLiterals branches firstLit lit8Count bufSize
        = some (branches.map
            (fun b => if firstLit ≤ b.target then { b with target := b.target - 4 } else b),
          firstLit - 4, bufSize - 4)
    ∧ (firstLit - 4) % 8 = 0 := by
  refine ⟨?_, ?_, ?_, ?_, ?_⟩
  · simp only [emitLiterals, if_neg h8]
    rw [hfl]
  · intro p hp
    simp only [emitLiterals, if_neg h8, List.mem_map, List.mem_range] at hp
    obtain ⟨i, hi, rfl⟩ := hp
    omega
  · simp only [emitLiterals, if_neg h8]
    omega
  · unfold alignLongLiterals
    rw [if_neg h8, if_neg (by omega : ¬(firstLit + lit8Count * 8 ≠ bufSize)),
      if_pos hmis]
  · omega

theorem c6_literal_pool_alignment_witness :
    ((1 : Nat) ≠ 0 ∧ (12 : Nat) = 8 + 4 * 0 + 4 ∧ (20 : Nat) = 12 + 8 * 1
      ∧ (8 : Nat) % 4 = 0 ∧ (12 : Nat) % 8 ≠ 0)
    ∧ alignLongLiterals
        [⟨0, 0, 12, .kLiteralLong, .kLiteralLong⟩, ⟨0, 0, 4, .kCondBranch, .kCondBranch⟩]
        12 1 20
      = some ([⟨0, 0, 8, .kLiteralLong, .kLiteralLong⟩, ⟨0, 0, 4, .kCondBranch, .kCondBranch⟩],
          8, 16)
    ∧ (8 : Nat) % 8 = 0 :=
  ⟨⟨by decide, by decide, by decide, by decide, by decide⟩,
   (c6_literal_pool_alignment 8 0 1
     [⟨0, 0, 12, .kLiteralLong, .kLiteralLong⟩, ⟨0, 0, 4, .kCondBranch, .kCondBranch⟩]
     12 20 (by decide) (by decide) (by decide) (by decide) (by decide)).2.2.2.1,
   (c6_literal_pool_alignment 8 0 1
     [⟨0, 0, 12, .kLiteralLong, .kLiteralLong⟩, ⟨0, 0, 4, .kCondBranch, .kCondBranch⟩]
     12 20 (by decide) (by decide) (by decide) (by decide) (by decide)).2.2.2.2⟩
